import Mathlib

set_option maxRecDepth 100000
set_option maxHeartbeats 1000000

/-!
Verification of the HL7 de-identification engine (`full.py`, `physician.py`).

The Python sources are shallowly embedded below.  Strings are modelled as
`List Char` (`Str`); Python's `str.split(sep)` for a one-character separator
is exactly `List.splitOn`; Python dicts that are only ever extended at a key
not yet present are modelled as association lists extended at the tail.
`hashlib.sha256` and `hmac.new(·, ·, hashlib.sha256)` are embedded as a full
executable SHA-256 over byte lists (UTF-8 encoded), so that hash-dependent
facts can be settled by kernel evaluation.  Randomness (`faker`, `random`) is
modelled by explicit oracle arguments: every call site that draws a fresh
random value reads the corresponding field of an oracle bundle indexed by
the number of draws made so far, and theorems quantify over all oracles.
-/

namespace HL7

/-- Python strings as lists of characters. -/
abbrev Str := List Char

/-- Shorthand for embedding Lean string literals. -/
def str (s : String) : Str := s.data

/-- Python `sep.join(parts)` for a one-character separator. -/
def pyJoin (c : Char) (parts : List Str) : Str := [c].intercalate parts

/-- Python `s.split(sep)` for a one-character separator: `List.splitOn`
produces `[[]]` on the empty string and keeps empty pieces, exactly like
Python's `str.split` with an explicit separator. -/
def pySplit (c : Char) (s : Str) : List Str := List.splitOn c s

/-- The whitespace characters stripped by Python's `str.strip()` (ASCII). -/
def pyIsSpace (c : Char) : Bool :=
  c = ' ' || c = '\t' || c = '\n' || c = '\x0d' || c = '\x0b' || c = '\x0c'

/-- Python `s.strip()`. -/
def pyStrip (s : Str) : Str :=
  ((s.dropWhile pyIsSpace).reverse.dropWhile pyIsSpace).reverse

/-- Python `s.upper()` (ASCII field-type codes only are compared here). -/
def pyUpper (s : Str) : Str := s.map Char.toUpper

/-- Python `s.startswith(p)`. -/
def pyStartswith : Str → Str → Bool
  | [], _ => true
  | _ :: _, [] => false
  | p :: ps, c :: cs => p = c && pyStartswith ps cs

/-- Python truthiness of a string: non-empty. -/
def pyTruthy (s : Str) : Bool := !s.isEmpty

/-- Python `str.splitlines()` restricted to the line breaks that occur in
this code base (`\n`, `\r`, `\r\n`): no entry for a trailing terminator and
`[]` on the empty string. -/
def pySplitlinesGo : Str → Str → List Str
  | [], acc => [acc.reverse]
  | '\x0d' :: '\n' :: rest, acc =>
      acc.reverse :: (if rest.isEmpty then [] else pySplitlinesGo rest [])
  | c :: rest, acc =>
      if c = '\n' || c = '\x0d' then
        acc.reverse :: (if rest.isEmpty then [] else pySplitlinesGo rest [])
      else pySplitlinesGo rest (c :: acc)

def pySplitlines (s : Str) : List Str :=
  if s.isEmpty then [] else pySplitlinesGo s []

/-- `int(s)` for a string of decimal digits (the only use sites feed pure
digit strings; any other character raises in Python, hence `none`). -/
def parseDigits? (s : Str) : Option Nat :=
  if s.isEmpty || !s.all Char.isDigit then none
  else some (s.foldl (fun a c => a * 10 + (c.toNat - 48)) 0)

/-- Association-list model of a Python dict under lookup
(first binding wins; all dict updates in the embedded code happen only at
keys not yet present, so appending the new binding is faithful). -/
def alookup (k : Str) : List (Str × α) → Option α
  | [] => none
  | (k', v) :: rest => if k = k' then some v else alookup k rest

/-- `d.get(k, dflt)`. -/
def dictGet (m : List (Str × Str)) (k dflt : Str) : Str := (alookup k m).getD dflt

/-! ### SHA-256 and HMAC (embedding of `hashlib.sha256` / `hmac.new`) -/

def w32 : Nat := 4294967296

def rotr32 (n x : Nat) : Nat := (x >>> n) ||| ((x <<< (32 - n)) % w32)

def bsig0 (x : Nat) : Nat := (rotr32 2 x) ^^^ (rotr32 13 x) ^^^ (rotr32 22 x)
def bsig1 (x : Nat) : Nat := (rotr32 6 x) ^^^ (rotr32 11 x) ^^^ (rotr32 25 x)
def ssig0 (x : Nat) : Nat := (rotr32 7 x) ^^^ (rotr32 18 x) ^^^ (x >>> 3)
def ssig1 (x : Nat) : Nat := (rotr32 17 x) ^^^ (rotr32 19 x) ^^^ (x >>> 10)
def chFn (x y z : Nat) : Nat := (x &&& y) ^^^ ((x ^^^ (w32 - 1)) &&& z)
def majFn (x y z : Nat) : Nat := (x &&& y) ^^^ (x &&& z) ^^^ (y &&& z)

def sha256K : List Nat :=
  [1116352408, 1899447441, 3049323471, 3921009573, 961987163, 1508970993,
   2453635748, 2870763221, 3624381080, 310598401, 607225278, 1426881987,
   1925078388, 2162078206, 2614888103, 3248222580, 3835390401, 4022224774,
   264347078, 604807628, 770255983, 1249150122, 1555081692, 1996064986,
   2554220882, 2821834349, 2952996808, 3210313671, 3336571891, 3584528711,
   113926993, 338241895, 666307205, 773529912, 1294757372, 1396182291,
   1695183700, 1986661051, 2177026350, 2456956037, 2730485921, 2820302411,
   3259730800, 3345764771, 3516065817, 3600352804, 4094571909, 275423344,
   430227734, 506948616, 659060556, 883997877, 958139571, 1322822218,
   1537002063, 1747873779, 1955562222, 2024104815, 2227730452, 2361852424,
   2428436474, 2756734187, 3204031479, 3329325298]

structure Hash8 where
  a : Nat
  b : Nat
  c : Nat
  d : Nat
  e : Nat
  f : Nat
  g : Nat
  h : Nat
deriving Repr, DecidableEq

def sha256Init : Hash8 :=
  { a := 1779033703, b := 3144134277, c := 1013904242, d := 2773480762,
    e := 1359893119, f := 2600822924, g := 528734635, h := 1541459225 }

/-- One block of zero bytes after the `0x80` marker so that the padded length
is 56 mod 64. -/
def sha256Pad (msg : List Nat) : List Nat :=
  let L := msg.length
  let z := (119 - (L % 64)) % 64
  msg ++ 128 :: List.replicate z 0 ++
    [56, 48, 40, 32, 24, 16, 8, 0].map (fun s => ((8 * L) >>> s) % 256)

def chunksOf64Go : Nat → List Nat → List (List Nat)
  | _, [] => []
  | 0, l => [l]
  | fuel + 1, l => l.take 64 :: chunksOf64Go fuel (l.drop 64)

def chunksOf64 (l : List Nat) : List (List Nat) := chunksOf64Go l.length l

/-- Big-endian 4-byte groups to 32-bit words. -/
def bytesToWords : List Nat → List Nat
  | b0 :: b1 :: b2 :: b3 :: rest =>
      (((b0 * 256 + b1) * 256 + b2) * 256 + b3) :: bytesToWords rest
  | _ => []

/-- Message-schedule extension, most recent word first. -/
def sha256ExtendRev (rw : List Nat) : Nat → List Nat
  | 0 => rw
  | k + 1 =>
      let nw := (ssig1 (rw.getD 1 0) + rw.getD 6 0 + ssig0 (rw.getD 14 0) +
                 rw.getD 15 0) % w32
      sha256ExtendRev (nw :: rw) k

def sha256Schedule (w16 : List Nat) : List Nat :=
  (sha256ExtendRev w16.reverse 48).reverse

def sha256Round (st : Hash8) (k w : Nat) : Hash8 :=
  let t1 := (st.h + bsig1 st.e + chFn st.e st.f st.g + k + w) % w32
  let t2 := (bsig0 st.a + majFn st.a st.b st.c) % w32
  { a := (t1 + t2) % w32, b := st.a, c := st.b, d := st.c,
    e := (st.d + t1) % w32, f := st.e, g := st.f, h := st.g }

def sha256Block (st : Hash8) (block : List Nat) : Hash8 :=
  let ws := sha256Schedule (bytesToWords block)
  let r := (List.zip sha256K ws).foldl (fun s kw => sha256Round s kw.1 kw.2) st
  { a := (st.a + r.a) % w32, b := (st.b + r.b) % w32, c := (st.c + r.c) % w32,
    d := (st.d + r.d) % w32, e := (st.e + r.e) % w32, f := (st.f + r.f) % w32,
    g := (st.g + r.g) % w32, h := (st.h + r.h) % w32 }

def word4 (x : Nat) : List Nat := [(x >>> 24) % 256, (x >>> 16) % 256, (x >>> 8) % 256, x % 256]

/-- SHA-256 digest as 32 bytes. -/
def sha256Bytes (msg : List Nat) : List Nat :=
  let st := (chunksOf64 (sha256Pad msg)).foldl sha256Block sha256Init
  word4 st.a ++ word4 st.b ++ word4 st.c ++ word4 st.d ++
  word4 st.e ++ word4 st.f ++ word4 st.g ++ word4 st.h

def hexDigitChar (n : Nat) : Char :=
  if n < 10 then Char.ofNat (48 + n) else Char.ofNat (87 + n)

/-- Fixed-width lowercase hex rendering (w nibbles). -/
def toHexPad (w : Nat) (n : Nat) : Str :=
  match w with
  | 0 => []
  | k + 1 => toHexPad k (n / 16) ++ [hexDigitChar (n % 16)]

/-- `hash_obj.hexdigest()`: 64 lowercase hex characters. -/
def sha256Hexdigest (msg : List Nat) : Str :=
  (sha256Bytes msg).flatMap (fun b => toHexPad 2 b)

/-- `int(hexstring, 16)`. -/
def fromHex (s : Str) : Nat :=
  s.foldl (fun a c => a * 16 + (if c.toNat ≥ 97 then c.toNat - 87 else c.toNat - 48)) 0

/-- `hmac.new(key, msg, hashlib.sha256)` (block size 64). -/
def hmacSha256Bytes (key msg : List Nat) : List Nat :=
  let k0 := if key.length > 64 then sha256Bytes key else key
  let k := k0 ++ List.replicate (64 - k0.length) 0
  let ipadded := k.map (fun b => b ^^^ 54)
  let opadded := k.map (fun b => b ^^^ 92)
  sha256Bytes (opadded ++ sha256Bytes (ipadded ++ msg))

def hmacSha256Hexdigest (key msg : List Nat) : Str :=
  (hmacSha256Bytes key msg).flatMap (fun b => toHexPad 2 b)

/-- `s.encode('utf-8')`. -/
def utf8Char (c : Char) : List Nat :=
  let n := c.toNat
  if n < 128 then [n]
  else if n < 2048 then [192 + n / 64, 128 + n % 64]
  else if n < 65536 then [224 + n / 4096, 128 + (n / 64) % 64, 128 + n % 64]
  else [240 + n / 262144, 128 + (n / 4096) % 64, 128 + (n / 64) % 64, 128 + n % 64]

def utf8 (s : Str) : List Nat := s.flatMap utf8Char

/-! ### Decimal rendering (`str(n)`, `format(n, '011d')`, `strftime`) -/

def natToDecGo : Nat → Nat → Str
  | 0, _ => []
  | fuel + 1, n => if n = 0 then [] else natToDecGo fuel (n / 10) ++ [Char.ofNat (48 + n % 10)]

/-- `str(n)` for a natural number. -/
def natToDec (n : Nat) : Str := if n = 0 then ['0'] else natToDecGo (n + 1) n

/-- `format(n, '0{w}d')`: decimal, left-padded with zeros to width `w`. -/
def padDec (w n : Nat) : Str :=
  let d := natToDec n
  List.replicate (w - d.length) '0' ++ d

/-- Decimal value of a digit string. -/
def decValue (s : Str) : Nat := s.foldl (fun a c => a * 10 + (c.toNat - 48)) 0

/-! ### Calendar model (`calendar.monthrange`, `datetime` validity) -/

/-- `calendar.isleap`. -/
def isLeap (y : Nat) : Bool := y % 4 = 0 && (y % 100 ≠ 0 || y % 400 = 0)

/-- `calendar.monthrange(y, m)[1]` for `1 ≤ m ≤ 12`. -/
def daysInMonth (y m : Nat) : Nat :=
  if m = 2 then (if isLeap y then 29 else 28)
  else if m = 4 || m = 6 || m = 9 || m = 11 then 30
  else 31

/-- Validity condition enforced by the `datetime(year, month, day)`
constructor (which raises `ValueError` otherwise). -/
def dateOK (y m d : Nat) : Bool :=
  1 ≤ y && y ≤ 9999 && 1 ≤ m && m ≤ 12 && 1 ≤ d && d ≤ daysInMonth y m

/-- `datetime(y, m, d).strftime("%Y%m%d")`. -/
def strftimeYmd (y m d : Nat) : Str := padDec 4 y ++ padDec 2 m ++ padDec 2 d

/-! ### Chronological sort key (`datetime` comparison)

`datetime` values compare lexicographically on
(year, month, day, hour, minute); with the component bounds enforced at
construction (month, day < 100; hour < 24; minute < 60) this agrees with
the following numeric encoding, which we use as the sort key. -/

def dtKey (y m d hh mi : Nat) : Nat := (((y * 100 + m) * 100 + d) * 100 + hh) * 100 + mi

/-- `datetime.min` = 0001-01-01 00:00. -/
def dtMin : Nat := dtKey 1 1 1 0 0

/-- `datetime.strptime(s, "%Y%m%d")` for `s` of length 8:
fixed-width digit groups, validated as a calendar date. -/
def strptimeYmd (s : Str) : Option Nat :=
  match parseDigits? (s.take 4), parseDigits? ((s.drop 4).take 2),
        parseDigits? (s.drop 6) with
  | some y, some m, some d => if dateOK y m d then some (dtKey y m d 0 0) else none
  | _, _, _ => none

/-- `datetime.strptime(s, "%Y%m%d%H%M")` for `s` of length 12. -/
def strptimeYmdHM (s : Str) : Option Nat :=
  match parseDigits? (s.take 4), parseDigits? ((s.drop 4).take 2),
        parseDigits? ((s.drop 6).take 2), parseDigits? ((s.drop 8).take 2),
        parseDigits? (s.drop 10) with
  | some y, some m, some d, some hh, some mi =>
      if dateOK y m d && hh ≤ 23 && mi ≤ 59 then some (dtKey y m d hh mi) else none
  | _, _, _, _, _ => none

/-! ### `full.py` -/

/-- `full.py` line 22: preserve the component count of the original field. -/
def preserve_carets (original_field new_value : Str) : Str :=
  let orig_components := pySplit '^' original_field
  let new_components := pySplit '^' new_value
  let new_components :=
    if new_components.length < orig_components.length then
      new_components ++ List.replicate (orig_components.length - new_components.length) []
    else new_components
  pyJoin '^' new_components

/-- `full.py` line 33: chronological key from the first `MSH` line that has a
parsable `MSH-7`; unparsable dates and records with no such line fall back to
`datetime.min` (an exception aborts the scan, a non-matching line does not). -/
def parse_hl7_dateGo : List Str → Nat
  | [] => dtMin
  | line :: rest =>
      if pyStartswith (str "MSH") line then
        let fields := pySplit '|' line
        if fields.length > 6 then
          let dt_field := (pyStrip (fields.getD 6 [])).take 12
          if dt_field.length = 12 then (strptimeYmdHM dt_field).getD dtMin
          else if dt_field.length = 8 then (strptimeYmd dt_field).getD dtMin
          else parse_hl7_dateGo rest
        else parse_hl7_dateGo rest
      else parse_hl7_dateGo rest

def parse_hl7_date (message : Str) : Nat := parse_hl7_dateGo (pySplitlines message)

/-- Truthiness of an optional string (`None` and `""` are falsy). -/
def optTruthy : Option Str → Bool
  | none => false
  | some s => pyTruthy s

/-- `full.py` line 48: correlation key for (facility, PID-3). -/
def generate_unique_key (facility pid_3 : Str) (secret_key : Option Str)
    (use_hmac : Bool) : Str :=
  let composite := facility ++ str "-" ++ pid_3
  if use_hmac && optTruthy secret_key then
    hmacSha256Hexdigest (utf8 (secret_key.getD [])) (utf8 composite)
  else
    sha256Hexdigest (utf8 composite)

/-- `full.py` line 58: facility from `MSH-4` of the first line, primary ID
from `PID-3` of the first `PID` line (`None` when the guards fail). -/
def extract_fields_from_message (msg : Str) : Option Str × Option Str :=
  let lines := pySplitlines msg
  let facility : Option Str :=
    match lines with
    | [] => none
    | l0 :: _ =>
        let msh_fields := pySplit '|' l0
        if msh_fields.length ≥ 4 then some (msh_fields.getD 3 []) else none
  let pid_3 : Option Str :=
    match lines.find? (fun l => pyStartswith (str "PID") l) with
    | none => none
    | some line =>
        let pid_fields := pySplit '|' line
        if pid_fields.length ≥ 4 then
          let reps := pySplit '~' (pid_fields.getD 3 [])
          some (pyStrip ((pySplit '^' (reps.getD 0 [])).getD 0 []))
        else none
  (facility, pid_3)

structure PatientData where
  pid_3 : Str := []
  pid_3_account : Str := []
  pid_4 : Str := []
  pid_5 : Str := []
  pid_6 : Str := []
  pid_7 : Str := []
  pid_8 : Str := []
  pid_9 : Str := []
  pid_11 : List (Str × Str) := []
  pid_13 : Str := []
  pid_14 : Str := []
  pid_18 : Str := []
  pid_19 : Str := []
  pid_21 : Str := []
deriving Repr, DecidableEq, Inhabited

/-- `full.py` line 76: identity attributes from the first `PID` line. -/
def extract_patient_data (msg : Str) : PatientData :=
  match (pySplitlines msg).find? (fun l => pyStartswith (str "PID") l) with
  | none => {}
  | some line =>
      let f := pySplit '|' line
      let d : PatientData := {}
      let d :=
        if f.length ≥ 4 then
          let reps := pySplit '~' (f.getD 3 [])
          let d := { d with pid_3 := pyStrip ((pySplit '^' (reps.getD 0 [])).getD 0 []) }
          match reps.find? (fun rep =>
              (pySplit '^' rep).length ≥ 5 &&
              pyUpper ((pySplit '^' rep).getD 4 []) = str "AN") with
          | some rep => { d with pid_3_account := pyStrip ((pySplit '^' rep).getD 0 []) }
          | none => d
        else d
      let d := if f.length ≥ 5 then { d with pid_4 := pyStrip (f.getD 4 []) } else d
      let d :=
        if f.length ≥ 6 then
          let name_field := pyStrip (f.getD 5 [])
          let parts := pySplit '^' name_field
          { d with pid_5 :=
              if parts.length ≥ 2 then parts.getD 1 [] ++ str " " ++ parts.getD 0 []
              else name_field }
        else d
      let d := if f.length ≥ 7 then { d with pid_6 := pyStrip (f.getD 6 []) } else d
      let d := if f.length ≥ 8 then { d with pid_7 := pyStrip (f.getD 7 []) } else d
      let d := if f.length ≥ 9 then { d with pid_8 := pyStrip (f.getD 8 []) } else d
      let d := if f.length ≥ 10 then { d with pid_9 := pyStrip (f.getD 9 []) } else d
      let d :=
        if f.length ≥ 12 then
          let parts := pySplit '^' (pyStrip (f.getD 11 []))
          let loc : List (Str × Str) :=
            if parts.length ≥ 4 then
              [(str "city", pyStrip (parts.getD 2 [])), (str "state", pyStrip (parts.getD 3 []))]
            else []
          let loc :=
            if parts.length ≥ 5 then loc ++ [(str "zipcode", pyStrip (parts.getD 4 []))]
            else loc
          { d with pid_11 := loc }
        else d
      let d := if f.length ≥ 14 then { d with pid_13 := pyStrip (f.getD 13 []) } else d
      let d := if f.length ≥ 15 then { d with pid_14 := pyStrip (f.getD 14 []) } else d
      let d := if f.length ≥ 19 then { d with pid_18 := pyStrip (f.getD 18 []) } else d
      let d := if f.length ≥ 20 then { d with pid_19 := pyStrip (f.getD 19 []) } else d
      let d := if f.length ≥ 22 then { d with pid_21 := pyStrip (f.getD 21 []) } else d
      d

/-- `full.py` line 144: random date of birth in the original birth year,
with the year clamped when the computed age reaches 90.  `todayYear` is
`datetime.today().year`; `rMonth`, `rDay` are the values drawn by
`random.randint(1, 12)` and `random.randint(1, monthrange(year, month)[1])`.
`none` models the uncaught `ValueError` raised by `datetime(...)` (the `try`
in the source only covers the `int(...)` parse). -/
def generate_fake_dob (todayYear rMonth rDay : Nat) (original_dob_str : Str) : Option Str :=
  let year := (parseDigits? (original_dob_str.take 4)).getD 1970
  let year := if todayYear - year ≥ 90 then todayYear - 90 else year
  if dateOK year rMonth rDay then some (strftimeYmd year rMonth rDay) else none

/-- `full.py` line 156: `str(random.randint(10**9, 10**10 - 1))`;
`rMrn` is the drawn value. -/
def generate_fake_mrn (rMrn : Nat) : Str := natToDec rMrn

/-- `full.py` line 159: `chr(randint(65, 90)) + str(randint(1000, 9999))`. -/
def generate_fake_alt_patient_id (rLetter rDigits : Nat) : Str :=
  Char.ofNat rLetter :: natToDec rDigits

/-- `full.py` line 162: synthetic account number — keyed or unkeyed SHA-256
of the raw value, reduced mod `10^11`, rendered as `"H"` plus 11 digits. -/
def generate_fake_account_number (original_account : Str) (secret_key : Option Str)
    (use_hmac : Bool) : Str :=
  let digest :=
    if use_hmac && optTruthy secret_key then
      hmacSha256Hexdigest (utf8 (secret_key.getD [])) (utf8 original_account)
    else
      sha256Hexdigest (utf8 original_account)
  let fake_num := fromHex digest % (10 ^ 11)
  'H' :: padDec 11 fake_num

/-! ### `physician.py`

`faker` draws are modelled by an oracle `po : Nat → PhysRand`: the k-th
physician-surrogate creation of the run reads `po k`.  The mapping dict plus
the draw counter form the threaded state `PhysState`. -/

structure PhysRand where
  firstName : Str
  lastName : Str
  idStr : Str
deriving Repr, DecidableEq, Inhabited

abbrev PhysState := List (Str × Str) × Nat

/-- `physician.py` line 8. -/
def is_physician_field (field_value : Str) : Bool :=
  if !pyTruthy (pyStrip field_value) then false
  else
    let parts := pySplit '^' field_value
    parts.length ≥ 4 &&
      (pyUpper (parts.getLastD []) = str "DO" ||
       pyUpper (parts.getLastD []) = str "MD" ||
       pyUpper (parts.getLastD []) = str "DR")

/-- `physician.py` line 19.  `fake_first[0]` is modelled as `take 1` (equal
for the non-empty names `faker` produces). -/
def map_physician_field (po : Nat → PhysRand) (value : Str) (ps : PhysState) :
    Str × PhysState :=
  if !is_physician_field value then (value, ps)
  else
    match alookup value ps.1 with
    | some v => (v, ps)
    | none =>
        let parts := pySplit '^' value
        let role := parts.getLastD []
        let pr := po ps.2
        let fake_first := pr.firstName
        let fake_initial := fake_first.take 1
        let new_value := pr.idStr ++ '^' :: pr.lastName ++ '^' :: fake_first ++
          '^' :: fake_initial ++ str "^^^" ++ role
        (new_value, (ps.1 ++ [(value, new_value)], ps.2 + 1))

/-- List map threading a state left to right. -/
def mapAccum (f : α → σ → β × σ) : List α → σ → List β × σ
  | [], st => ([], st)
  | x :: xs, st =>
      let r := f x st
      let rs := mapAccum f xs r.2
      (r.1 :: rs.1, rs.2)

/-- `physician.py` line 46: rewrite the physician fields of every `PV1`
segment of a message. -/
def phys_process_hl7_message (po : Nat → PhysRand) (message : Str) (ps : PhysState) :
    Str × PhysState :=
  let r := mapAccum (fun seg ps =>
      if pyStartswith (str "PV1") seg then
        let fr := mapAccum (map_physician_field po) (pySplit '|' seg) ps
        (pyJoin '|' fr.1, fr.2)
      else (seg, ps)) (pySplitlines message) ps
  (pyJoin '\n' r.1, r.2)

/-- `physician.py` line 62. -/
def extract_physician_fields (po : Nat → PhysRand) (msg : Str) (ps : PhysState) :
    List Str × PhysState :=
  (pySplitlines msg).foldl (fun acc line =>
    if pyStartswith (str "PV1") line then
      (pySplit '|' line).foldl (fun acc field =>
        if is_physician_field field then
          let r := map_physician_field po field acc.2
          (acc.1 ++ [r.1], r.2)
        else acc) acc
    else acc) ([], ps)

/-! ### Surrogate-identity creation (`full.py` line 223) -/

/-- One `create_deidentified_dict` call's worth of `faker`/`random` draws. -/
structure RandBundle where
  nameMale : Str
  nameFemale : Str
  nameAny : Str
  mrn : Nat
  dobMonth : Nat
  dobDay : Nat
  ssn : Str
  city : Str
  zipcode : Str
  altLetter : Nat
  altDigits : Nat
  lastName : Str
  phone1 : Str
  phone2 : Str
deriving Repr, DecidableEq, Inhabited

structure DeidDict where
  unique_id : Str
  new_pid_3 : Str
  new_pid_4 : Str
  new_pid_5 : Str
  new_pid_6 : Str
  new_pid_7 : Str
  new_pid_8 : Str
  new_pid_9 : Str
  new_pid_11 : List (Str × Str)
  new_pid_13 : Str
  new_pid_14 : Str
  new_pid_18 : Str
  new_pid_19 : Str
  new_pid_21 : Str
  new_pid_3_account : Str
  sensitive_info : List Str
  deid_physicians : List Str
deriving Repr, DecidableEq, Inhabited

/-- Python `s.split()` (no argument): whitespace runs, empties dropped. -/
def pySplitWs (s : Str) : List Str :=
  (List.splitOnP pyIsSpace s).filter (fun x => !x.isEmpty)

/-- `calendar.month_name[i]` (`none` = `IndexError`). -/
def monthName : Nat → Option Str
  | 0 => some []
  | 1 => some (str "January")
  | 2 => some (str "February")
  | 3 => some (str "March")
  | 4 => some (str "April")
  | 5 => some (str "May")
  | 6 => some (str "June")
  | 7 => some (str "July")
  | 8 => some (str "August")
  | 9 => some (str "September")
  | 10 => some (str "October")
  | 11 => some (str "November")
  | 12 => some (str "December")
  | _ => none

/-- The date-of-birth permutation block of `sensitive_info` (`full.py`
line 276): `none` models the `IndexError`/`ValueError` of
`calendar.month_name[int(month)]` on a malformed 8-character value. -/
def siDobPart (od : PatientData) : Option (List Str) :=
  if pyTruthy od.pid_7 && od.pid_7.length = 8 then
    let y := od.pid_7.take 4
    let mo := (od.pid_7.drop 4).take 2
    let dd := od.pid_7.drop 6
    match parseDigits? mo with
    | none => none
    | some mi =>
        match monthName mi with
        | none => none
        | some mn =>
            some [od.pid_7,
              y ++ '-' :: mo ++ '-' :: dd, mo ++ '-' :: dd ++ '-' :: y,
              dd ++ '-' :: mo ++ '-' :: y,
              y ++ '/' :: mo ++ '/' :: dd, mo ++ '/' :: dd ++ '/' :: y,
              dd ++ '/' :: mo ++ '/' :: y,
              mo ++ '/' :: dd, mn ++ ' ' :: dd ++ str ", " ++ y]
  else if pyTruthy od.pid_7 then some [od.pid_7]
  else some []

/-- `full.py` line 223: build the synthetic identity bundle for one entity.
`none` models an uncaught exception (`ValueError` from `datetime` inside
`generate_fake_dob`, or inside the `sensitive_info` date block).
`secret_key` and `use_hmac` are taken but, as in the source, unused.
`todayYear` is `datetime.today().year` and `rb` holds this call's random
draws. -/
def create_deidentified_dict (unique_id : Str) (od : PatientData)
    (deid_physicians : List Str) (account_to_deid_map : List (Str × Str))
    (_secret_key : Option Str) (_use_hmac : Bool)
    (todayYear : Nat) (rb : RandBundle) : Option DeidDict :=
  let new_pid_5 :=
    if pyTruthy od.pid_5 then
      let new_name :=
        if pyTruthy od.pid_8 then
          if pyUpper od.pid_8 = str "M" then rb.nameMale
          else if pyUpper od.pid_8 = str "F" then rb.nameFemale
          else rb.nameAny
        else rb.nameAny
      let name_parts := pySplitWs new_name
      if name_parts.length ≥ 2 then
        name_parts.getLastD [] ++ '^' :: name_parts.getD 0 []
      else new_name
    else []
  let new_pid_9 := if pyTruthy od.pid_9 then new_pid_5 else []
  let new_pid_3 := if pyTruthy od.pid_3 then generate_fake_mrn rb.mrn else []
  let new_pid_7opt :=
    if pyTruthy od.pid_7 then generate_fake_dob todayYear rb.dobMonth rb.dobDay od.pid_7
    else some []
  let new_pid_19 := if pyTruthy od.pid_19 then rb.ssn else []
  let new_pid_11 : List (Str × Str) :=
    if !od.pid_11.isEmpty && pyTruthy (dictGet od.pid_11 (str "state") []) then
      [(str "state", dictGet od.pid_11 (str "state") []),
       (str "city", rb.city), (str "zipcode", rb.zipcode)]
    else []
  let new_pid_4 :=
    if pyTruthy od.pid_4 then generate_fake_alt_patient_id rb.altLetter rb.altDigits else []
  let new_pid_6 := if pyTruthy od.pid_6 then rb.lastName else []
  let new_pid_13 := if pyTruthy od.pid_13 then rb.phone1 else []
  let new_pid_14 := if pyTruthy od.pid_14 then rb.phone2 else []
  let new_pid_18 := dictGet account_to_deid_map od.pid_18 od.pid_18
  let new_pid_21 :=
    if pyTruthy od.pid_21 then dictGet account_to_deid_map od.pid_21 od.pid_21 else []
  let new_pid_3_account := dictGet account_to_deid_map od.pid_3_account []
  let si : List Str :=
    if pyTruthy od.pid_5 then
      let parts := pySplitWs od.pid_5
      [od.pid_5] ++
        (if parts.length ≥ 2 then [parts.getD 0 [], pyJoin ' ' parts.tail] else [])
    else []
  match new_pid_7opt, siDobPart od with
  | some new_pid_7, some siDob =>
      let si := si ++ siDob
      let si := [od.pid_13, od.pid_14].foldl (fun si phone =>
          if pyTruthy phone then
            let si := si ++ [phone]
            let alt_phone := phone.filter Char.isDigit
            if pyTruthy alt_phone && alt_phone ≠ phone then si ++ [alt_phone] else si
          else si) si
      let si := [od.pid_19, od.pid_3, od.pid_4, od.pid_6, od.pid_9].foldl
          (fun si v => if pyTruthy v then si ++ [v] else si) si
      let si := si.filter (fun x => !(pyTruthy x && x.all (fun c => c = '^')))
      some { unique_id := unique_id, new_pid_3 := new_pid_3, new_pid_4 := new_pid_4,
             new_pid_5 := new_pid_5, new_pid_6 := new_pid_6, new_pid_7 := new_pid_7,
             new_pid_8 := od.pid_8, new_pid_9 := new_pid_9, new_pid_11 := new_pid_11,
             new_pid_13 := new_pid_13, new_pid_14 := new_pid_14, new_pid_18 := new_pid_18,
             new_pid_19 := new_pid_19, new_pid_21 := new_pid_21,
             new_pid_3_account := new_pid_3_account, sensitive_info := si,
             deid_physicians := deid_physicians }
  | _, _ => none

/-! ### Record rewriting (`full.py` line 178) -/

/-- Field indices the `PID` rewrite is allowed to touch. -/
def designatedPID : List Nat := [3, 4, 5, 6, 7, 8, 9, 11, 13, 14, 18, 19, 21]

/-- The field array of a `PID` line after
`while len(pid_fields) < 22: pid_fields.append("")`. -/
def padPID (line : Str) : List Str :=
  pySplit '|' line ++ List.replicate (22 - (pySplit '|' line).length) ([] : Str)

/-- The rebuilt field array for a `PID` line (the positional-substitution
half of the loop body of `deidentify_hl7_message`). -/
def deidPIDFields (d : DeidDict) (line : Str) : List Str :=
  let f := padPID line
  let f := f.set 3 (preserve_carets (f.getD 3 []) d.new_pid_3)
  let f :=
    if pyTruthy d.new_pid_3_account then
      f.set 3 ((f.getD 3 []) ++ '~' ::
        preserve_carets (str "dummy^^^^AN") d.new_pid_3_account)
    else f
  let f := f.set 4 (preserve_carets (f.getD 4 []) d.new_pid_4)
  let f := f.set 5 (preserve_carets (f.getD 5 []) d.new_pid_5)
  let f := f.set 6 (preserve_carets (f.getD 6 []) d.new_pid_6)
  let f := f.set 7 (preserve_carets (f.getD 7 []) d.new_pid_7)
  let f := f.set 8 (preserve_carets (f.getD 8 []) d.new_pid_8)
  let f := f.set 9 (preserve_carets (f.getD 9 []) d.new_pid_9)
  let orig_components := pySplit '^' (f.getD 11 [])
  let new_components : List Str :=
    [[], dictGet d.new_pid_11 (str "city") [], dictGet d.new_pid_11 (str "state") [],
     dictGet d.new_pid_11 (str "zipcode") []]
  let new_components :=
    new_components ++ List.replicate (orig_components.length - new_components.length) []
  let f := f.set 11 (pyJoin '^' new_components)
  let f := f.set 13 (preserve_carets (f.getD 13 []) d.new_pid_13)
  let f := f.set 14 (preserve_carets (f.getD 14 []) d.new_pid_14)
  let f := f.set 18 (preserve_carets (f.getD 18 []) d.new_pid_18)
  let f := f.set 19 (preserve_carets (f.getD 19 []) d.new_pid_19)
  if f.length ≥ 22 then f.set 21 (preserve_carets (f.getD 21 []) d.new_pid_21)
  else f

/-- Rewrite of one line of a message (the body of the `for` loop of
`deidentify_hl7_message`). -/
def deidLine (po : Nat → PhysRand) (d : DeidDict) (line : Str) (ps : PhysState) :
    Str × PhysState :=
  if pyStartswith (str "PID") line then
    (pyJoin '|' (deidPIDFields d line), ps)
  else if pyStartswith (str "PV1") line then
    phys_process_hl7_message po line ps
  else (line, ps)

/-- `full.py` line 178: rewrite the `PID` segment from the identity bundle
and the `PV1` segments through the physician mapping; all other lines pass
through unchanged. -/
def deidentify_hl7_message (po : Nat → PhysRand) (msg : Str) (d : DeidDict)
    (ps : PhysState) : Str × PhysState :=
  let r := mapAccum (deidLine po d) (pySplitlines msg) ps
  (pyJoin '\n' r.1, r.2)

/-- `full.py` line 173 (the `ZDEID` append is commented out in the source). -/
def append_deid_segment (msg : Str) (_d : DeidDict) : Str := msg

/-! ### The two-pass batch driver (`full.py` line 318) -/

structure Config where
  secret : Option Str := none
  use_hmac : Bool := false
  todayYear : Nat := 2026

structure Oracles where
  bundle : Nat → RandBundle
  phys : Nat → PhysRand

/-- Pass 1 (`full.py` line 337): one conditional registry insert. -/
def pass1_insert (cfg : Config) (am : List (Str × Str)) (acct : Str) : List (Str × Str) :=
  if pyTruthy acct && (alookup acct am).isNone then
    am ++ [(acct, generate_fake_account_number acct cfg.secret cfg.use_hmac)]
  else am

def pass1_step (cfg : Config) (am : List (Str × Str)) (msg : Str) : List (Str × Str) :=
  let pd := extract_patient_data msg
  pass1_insert cfg (pass1_insert cfg am pd.pid_18) pd.pid_3_account

/-- Pass 1 over the whole batch: `account_to_deid_map`. -/
def build_account_map (cfg : Config) (messages : List Str) : List (Str × Str) :=
  messages.foldl (pass1_step cfg) []

structure Pass2State where
  identity_map : List (Str × DeidDict) := []
  mother_map : List (Str × Str) := []
  phys : PhysState := ([], 0)
  createCount : Nat := 0

structure RecordOut where
  dt : Nat
  orig : Str
  deid : Str
  unique_key : Str
  facility : Option Str
  pid_3 : Option Str
  dict : DeidDict
deriving Repr, DecidableEq, Inhabited

/-- The chronological key of a record:
`parse_hl7_date(lines[0]) if lines else datetime.min` (`full.py` line 355). -/
def msgSortKey (msg : Str) : Nat :=
  match pySplitlines msg with
  | [] => dtMin
  | l :: _ => parse_hl7_date l

/-- The correlation key a message is filed under (`full.py` line 357): empty
unless both facility and primary ID are truthy. -/
def msgKeyOf (cfg : Config) (msg : Str) : Str :=
  let fp := extract_fields_from_message msg
  if optTruthy fp.1 && optTruthy fp.2 then
    generate_unique_key (fp.1.getD []) (fp.2.getD []) cfg.secret cfg.use_hmac
  else []

/-- `full.py` line 363: replace `PID-18` with its registered surrogate
(`KeyError`, i.e. `none`, when absent — unreachable after pass 1). -/
def subst18 (am : List (Str × Str)) (pd : PatientData) : Option PatientData :=
  if pyTruthy pd.pid_18 then
    match alookup pd.pid_18 am with
    | some v => some { pd with pid_18 := v }
    | none => none
  else some pd

/-- `full.py` line 365: replace the `PID-3` `AN` account. -/
def subst3acc (am : List (Str × Str)) (pd : PatientData) : Option PatientData :=
  if pyTruthy pd.pid_3_account then
    match alookup pd.pid_3_account am with
    | some v => some { pd with pid_3_account := v }
    | none => none
  else some pd

/-- `full.py` line 367: replace `PID-21` from the pass-1 registry, falling
back to `mother_to_deid_map` (created on demand) when the value was never
registered. -/
def subst21 (cfg : Config) (am : List (Str × Str))
    (mother_map : List (Str × Str)) (pd : PatientData) :
    PatientData × List (Str × Str) :=
  if pyTruthy pd.pid_21 then
    match alookup pd.pid_21 am with
    | some v => ({ pd with pid_21 := v }, mother_map)
    | none =>
        let mm :=
          if (alookup pd.pid_21 mother_map).isNone then
            mother_map ++
              [(pd.pid_21, generate_fake_account_number pd.pid_21 cfg.secret cfg.use_hmac)]
          else mother_map
        ({ pd with pid_21 := (alookup pd.pid_21 mm).getD pd.pid_21 }, mm)
  else (pd, mother_map)

/-- The secondary-identifier substitution applied to the extracted data
before identity creation (`full.py` lines 362-374), together with the
updated `mother_to_deid_map`.  `none` models a `KeyError` on
`account_to_deid_map[...]` (unreachable after pass 1, which registers every
truthy `PID-18`/`PID-3` account of the batch). -/
def substituteAccounts (cfg : Config) (am : List (Str × Str))
    (mother_map : List (Str × Str)) (pd : PatientData) :
    Option (PatientData × List (Str × Str)) := do
  let pd ← subst18 am pd
  let pd ← subst3acc am pd
  pure (subst21 cfg am mother_map pd)

/-- Pass 2 (`full.py` line 352), one message: produce the record's output
tuple and the updated shared state.  `none` models an uncaught exception
(`KeyError`, or an exception inside `create_deidentified_dict`). -/
def pass2_core (cfg : Config) (o : Oracles) (am : List (Str × Str))
    (st : Pass2State) (msg : Str) : Option (Pass2State × RecordOut) := do
  let dt := msgSortKey msg
  let fp := extract_fields_from_message msg
  let unique_key := msgKeyOf cfg msg
  let pm ← substituteAccounts cfg am st.mother_map (extract_patient_data msg)
  let pd := pm.1
  let mother_map := pm.2
  match alookup unique_key st.identity_map with
  | some d =>
      let dh := deidentify_hl7_message o.phys msg d st.phys
      pure ({ st with mother_map := mother_map, phys := dh.2 },
            ⟨dt, msg, append_deid_segment dh.1 d, unique_key, fp.1, fp.2, d⟩)
  | none =>
      let ep := extract_physician_fields o.phys msg st.phys
      let d ← create_deidentified_dict unique_key pd ep.1 am cfg.secret cfg.use_hmac
        cfg.todayYear (o.bundle st.createCount)
      let dh := deidentify_hl7_message o.phys msg d ep.2
      pure ({ identity_map := st.identity_map ++ [(unique_key, d)],
              mother_map := mother_map, phys := dh.2,
              createCount := st.createCount + 1 },
            ⟨dt, msg, append_deid_segment dh.1 d, unique_key, fp.1, fp.2, d⟩)

def pass2Run (cfg : Config) (o : Oracles) (am : List (Str × Str)) :
    List Str → Pass2State × List RecordOut → Option (Pass2State × List RecordOut)
  | [], acc => some acc
  | m :: ms, acc =>
      match pass2_core cfg o am acc.1 m with
      | none => none
      | some sr => pass2Run cfg o am ms (sr.1, acc.2 ++ [sr.2])

/-- Pass 1 plus pass 2, before the final sort: the per-record output tuples
in input order. -/
def pass2Results (cfg : Config) (o : Oracles) (messages : List Str) :
    Option (List RecordOut) :=
  (pass2Run cfg o (build_account_map cfg messages) messages ({}, [])).map (fun r => r.2)

/-- The whole driver: pass 1, pass 2, then the final stable ascending sort
by chronological key (`messages_with_details.sort(key=lambda x: x[0])`;
`List.mergeSort` is stable, as is Python's sort, and a stable sort's output
is determined by the multiset, the key order and stability, so this is an
exact model of the sorted output). -/
def processBatch (cfg : Config) (o : Oracles) (messages : List Str) :
    Option (List RecordOut) :=
  (pass2Results cfg o messages).map
    (fun res => res.mergeSort (fun a b => decide (a.dt ≤ b.dt)))

/-! ## Utility lemmas -/

theorem alookup_append_left {α : Type} {k : Str} {m₁ m₂ : List (Str × α)} {v : α}
    (h : alookup k m₁ = some v) : alookup k (m₁ ++ m₂) = some v := by
  induction m₁ with
  | nil => simp [alookup] at h
  | cons p rest ih =>
      simp only [alookup, List.cons_append] at h ⊢
      split at h
      · exact h ▸ (by simp [*])
      · simp only [*, if_neg]
        exact ih h

theorem alookup_append_right {α : Type} {k : Str} {m₁ m₂ : List (Str × α)}
    (h : alookup k m₁ = none) : alookup k (m₁ ++ m₂) = alookup k m₂ := by
  induction m₁ with
  | nil => simp
  | cons p rest ih =>
      simp only [alookup, List.cons_append] at h ⊢
      split at h
      · exact absurd h (by simp)
      · simp only [*, if_neg]
        exact ih h

theorem alookup_self_append {α : Type} {k : Str} {m : List (Str × α)} {v : α}
    (h : alookup k m = none) : alookup k (m ++ [(k, v)]) = some v := by
  rw [alookup_append_right h]
  simp [alookup]

/-- The pieces produced by `splitOnP` contain no separator. -/
theorem splitOnP_pieces {α : Type} {p : α → Bool} :
    ∀ {xs l : List α}, l ∈ List.splitOnP p xs → ∀ a ∈ l, p a = false := by
  intro xs
  induction xs with
  | nil =>
      intro l hl a ha
      simp [List.splitOnP_nil] at hl
      subst hl; simp at ha
  | cons x xs ih =>
      intro l hl a ha
      rw [List.splitOnP_cons] at hl
      by_cases hx : p x
      · rw [if_pos hx] at hl
        rcases List.mem_cons.mp hl with h | h
        · subst h; simp at ha
        · exact ih h a ha
      · rw [if_neg hx] at hl
        cases hsp : List.splitOnP p xs with
        | nil => exact absurd hsp (List.splitOnP_ne_nil p xs)
        | cons hd tl =>
            rw [hsp, List.modifyHead] at hl
            rcases List.mem_cons.mp hl with h | h
            · subst h
              rcases List.mem_cons.mp ha with h' | h'
              · subst h'; exact Bool.eq_false_iff.mpr hx
              · exact ih (hsp ▸ List.mem_cons_self hd tl) a h'
            · exact ih (hsp ▸ List.mem_cons_of_mem hd h) a ha

theorem pySplit_ne_nil (c : Char) (s : Str) : pySplit c s ≠ [] :=
  List.splitOnP_ne_nil _ s

theorem pySplit_length_pos (c : Char) (s : Str) : 0 < (pySplit c s).length :=
  List.length_pos.mpr (pySplit_ne_nil c s)

theorem not_mem_of_mem_pySplit {c : Char} {s p : Str} (h : p ∈ pySplit c s) : c ∉ p := by
  intro hc
  have := splitOnP_pieces (p := (· == c)) h c hc
  simp at this

/-- Splitting is a left inverse of joining, when no piece contains the
separator. -/
theorem pySplit_pyJoin {c : Char} {l : List Str} (hl : l ≠ [])
    (h : ∀ p ∈ l, c ∉ p) : pySplit c (pyJoin c l) = l :=
  List.splitOn_intercalate l c h hl

/-! ## C4: structural preservation of `preserve_carets` -/

/-- The component decomposition of a rewritten field: the replacement's
components, right-padded with empty components up to the original count. -/
theorem preserve_carets_split (o n : Str) :
    pySplit '^' (preserve_carets o n) =
      if (pySplit '^' n).length < (pySplit '^' o).length then
        pySplit '^' n ++
          List.replicate ((pySplit '^' o).length - (pySplit '^' n).length) []
      else pySplit '^' n := by
  unfold preserve_carets
  split
  · rename_i hlt
    simp only [if_pos hlt]
    apply pySplit_pyJoin
    · exact fun hcon => pySplit_ne_nil '^' n (List.append_eq_nil.mp hcon).1
    · intro p hp
      rcases List.mem_append.mp hp with h | h
      · exact not_mem_of_mem_pySplit h
      · rw [List.eq_of_mem_replicate h]; simp
  · rename_i hge
    simp only [if_neg hge]
    apply pySplit_pyJoin (pySplit_ne_nil '^' n)
    intro p hp
    exact not_mem_of_mem_pySplit hp

/-- C4: for every original field text and every replacement text, the
rewritten field has at least as many `^`-separated components as the
original (exactly the maximum of the two counts); when the replacement has
fewer components it is right-padded with empty components to the original's
count, and when it has at least as many the components are kept as they
are — the original's component count is never truncated. -/
theorem C4_structural_preservation (o n : Str) :
    (pySplit '^' o).length ≤ (pySplit '^' (preserve_carets o n)).length ∧
    (pySplit '^' (preserve_carets o n)).length =
      max (pySplit '^' o).length (pySplit '^' n).length ∧
    ((pySplit '^' n).length < (pySplit '^' o).length →
      pySplit '^' (preserve_carets o n) =
        pySplit '^' n ++
          List.replicate ((pySplit '^' o).length - (pySplit '^' n).length) []) ∧
    ((pySplit '^' o).length ≤ (pySplit '^' n).length →
      pySplit '^' (preserve_carets o n) = pySplit '^' n) := by
  have hs := preserve_carets_split o n
  by_cases hlt : (pySplit '^' n).length < (pySplit '^' o).length
  · rw [if_pos hlt] at hs
    refine ⟨?_, ?_, fun _ => hs, fun hge => absurd hlt (Nat.not_lt.mpr hge)⟩
    · rw [hs]; simp; omega
    · rw [hs]; simp; omega
  · rw [if_neg hlt] at hs
    refine ⟨?_, ?_, fun h => absurd h hlt, fun _ => hs⟩
    · rw [hs]; omega
    · rw [hs]; omega

/-- Witness for C4 at the spec's own example: components `A^B^^D` replaced
by the single-component `X` give `X` padded with three empty components. -/
theorem C4_witness :
    pySplit '^' (preserve_carets (str "A^B^^D") (str "X")) =
      pySplit '^' (str "X") ++
        List.replicate ((pySplit '^' (str "A^B^^D")).length -
          (pySplit '^' (str "X")).length) [] :=
  (C4_structural_preservation (str "A^B^^D") (str "X")).2.2.1 (by decide)

/-! ## Decimal rendering lemmas (for C6) -/

theorem digitChar_isDigit {m : Nat} (h : m < 10) :
    (Char.ofNat (48 + m)).isDigit = true := by
  interval_cases m <;> decide

theorem digitChar_toNat {m : Nat} (h : m < 10) :
    (Char.ofNat (48 + m)).toNat = 48 + m := by
  interval_cases m <;> decide

theorem decValue_append (s : Str) (c : Char) :
    decValue (s ++ [c]) = 10 * decValue s + (c.toNat - 48) := by
  simp [decValue, List.foldl_append]
  omega

theorem natToDecGo_spec :
    ∀ fuel n, n ≤ fuel →
      decValue (natToDecGo fuel n) = n ∧
      (∀ c ∈ natToDecGo fuel n, c.isDigit = true) ∧
      (∀ k, n < 10 ^ k → (natToDecGo fuel n).length ≤ k) := by
  intro fuel
  induction fuel with
  | zero =>
      intro n hn
      have : n = 0 := Nat.le_zero.mp hn
      subst this
      refine ⟨rfl, by simp [natToDecGo], by simp [natToDecGo]⟩
  | succ fuel ih =>
      intro n hn
      by_cases h0 : n = 0
      · subst h0
        refine ⟨rfl, by simp [natToDecGo], by simp [natToDecGo]⟩
      · have hdiv : n / 10 ≤ fuel := by
          have hlt : n / 10 < n := Nat.div_lt_self (Nat.pos_of_ne_zero h0) (by omega)
          omega
        obtain ⟨ihv, ihd, ihl⟩ := ih (n / 10) hdiv
        have hmod : n % 10 < 10 := Nat.mod_lt n (by omega)
        refine ⟨?_, ?_, ?_⟩
        · simp only [natToDecGo, if_neg h0]
          rw [decValue_append, ihv, digitChar_toNat hmod]
          omega
        · simp only [natToDecGo, if_neg h0]
          intro c hc
          rcases List.mem_append.mp hc with h | h
          · exact ihd c h
          · simp at h
            subst h
            exact digitChar_isDigit hmod
        · intro k hk
          simp only [natToDecGo, if_neg h0, List.length_append, List.length_cons,
            List.length_nil]
          have hk1 : 1 ≤ k := by
            by_contra hcon
            have : k = 0 := by omega
            subst this
            simp at hk
            omega
          have : n / 10 < 10 ^ (k - 1) := by
            rw [Nat.div_lt_iff_lt_mul (by omega)]
            calc n < 10 ^ k := hk
            _ = 10 ^ (k - 1) * 10 := by
                rw [← Nat.pow_succ]
                congr 1
                omega
          have := ihl (k - 1) this
          omega

theorem natToDec_spec (n : Nat) :
    decValue (natToDec n) = n ∧ (∀ c ∈ natToDec n, c.isDigit = true) ∧
    (∀ k, 0 < k → n < 10 ^ k → (natToDec n).length ≤ k) := by
  by_cases h0 : n = 0
  · subst h0
    refine ⟨rfl, by decide, ?_⟩
    intro k hk _
    simp [natToDec]
    omega
  · obtain ⟨hv, hd, hl⟩ := natToDecGo_spec (n + 1) n (by omega)
    simp only [natToDec, if_neg h0]
    exact ⟨hv, hd, fun k _ hk => hl k hk⟩

theorem decValue_zero_pad (z : Nat) (s : Str) :
    decValue (List.replicate z '0' ++ s) = decValue s := by
  induction z with
  | zero => simp
  | succ z ih =>
      simp only [List.replicate_succ, List.cons_append]
      simp only [decValue, List.foldl_cons] at ih ⊢
      convert ih using 2

theorem padDec_spec (w n : Nat) (hw : 0 < w) (h : n < 10 ^ w) :
    (padDec w n).length = w ∧ decValue (padDec w n) = n ∧
    (∀ c ∈ padDec w n, c.isDigit = true) := by
  obtain ⟨hv, hd, hl⟩ := natToDec_spec n
  have hlen : (natToDec n).length ≤ w := hl w hw h
  refine ⟨?_, ?_, ?_⟩
  · simp [padDec]
    omega
  · simp only [padDec]
    rw [decValue_zero_pad]
    exact hv
  · intro c hc
    simp only [padDec] at hc
    rcases List.mem_append.mp hc with h' | h'
    · rw [List.eq_of_mem_replicate h']
      decide
    · exact hd c h'

/-! ## C6: shape and determinism of synthetic account numbers -/

/-- C6: the synthetic account number is a pure function of the raw value and
the keying configuration (its model takes no other argument, and equal
inputs give equal outputs); its value is the fixed character `H` followed by
exactly 11 decimal digits whose value is the SHA-256 (HMAC-SHA-256 when
keyed) digest of the raw value reduced modulo `10^11`. -/
theorem C6_account_number_shape (v : Str) (secret : Option Str) (hm : Bool) :
    (∀ (v' : Str) (s' : Option Str) (b' : Bool), v' = v → s' = secret → b' = hm →
      generate_fake_account_number v' s' b' = generate_fake_account_number v secret hm) ∧
    generate_fake_account_number v secret hm =
      'H' :: padDec 11 (fromHex (if hm && optTruthy secret then
          hmacSha256Hexdigest (utf8 (secret.getD [])) (utf8 v)
        else sha256Hexdigest (utf8 v)) % 10 ^ 11) ∧
    (generate_fake_account_number v secret hm).length = 12 ∧
    (∀ c ∈ (generate_fake_account_number v secret hm).tail, c.isDigit = true) ∧
    decValue (generate_fake_account_number v secret hm).tail =
      fromHex (if hm && optTruthy secret then
          hmacSha256Hexdigest (utf8 (secret.getD [])) (utf8 v)
        else sha256Hexdigest (utf8 v)) % 10 ^ 11 := by
  have hmod : fromHex (if hm && optTruthy secret then
      hmacSha256Hexdigest (utf8 (secret.getD [])) (utf8 v)
    else sha256Hexdigest (utf8 v)) % 10 ^ 11 < 10 ^ 11 :=
    Nat.mod_lt _ (by norm_num)
  obtain ⟨hlen, hval, hdig⟩ := padDec_spec 11 _ (by norm_num) hmod
  have hdef : generate_fake_account_number v secret hm =
      'H' :: padDec 11 (fromHex (if hm && optTruthy secret then
          hmacSha256Hexdigest (utf8 (secret.getD [])) (utf8 v)
        else sha256Hexdigest (utf8 v)) % 10 ^ 11) := rfl
  refine ⟨?_, hdef, ?_, ?_, ?_⟩
  · rintro v' s' b' rfl rfl rfl; rfl
  · rw [hdef, List.length_cons, hlen]
  · rw [hdef]
    simpa using hdig
  · rw [hdef]
    simpa using hval

/-- Witness for C6 at `v = "ACCT100"`, unkeyed. -/
theorem C6_witness :
    generate_fake_account_number (str "ACCT100") none false =
      generate_fake_account_number (str "ACCT100") none false :=
  (C6_account_number_shape (str "ACCT100") none false).1 _ _ _ rfl rfl rfl

/-! ## C7: deterministic keyed correlation -/

/-- C7: the correlation key is a pure function of
(facility, primary ID, secret, keyed-flag) — equal inputs give byte-equal
keys — and changing the secret changes the key, exhibited on the spec's own
(facility, primary-ID) pair with two concrete secrets. -/
theorem C7_deterministic_keyed_correlation :
    (∀ (f p : Str) (s : Option Str) (b : Bool) (f' p' : Str) (s' : Option Str) (b' : Bool),
      f = f' → p = p' → s = s' → b = b' →
      generate_unique_key f p s b = generate_unique_key f' p' s' b') ∧
    generate_unique_key (str "FAC001") (str "123456") (some (str "secretA")) true ≠
      generate_unique_key (str "FAC001") (str "123456") (some (str "secretB")) true := by
  refine ⟨?_, ?_⟩
  · rintro f p s b f' p' s' b' rfl rfl rfl rfl; rfl
  · decide

/-- Witness for C7: repeated invocation on identical input is byte-identical. -/
theorem C7_witness :
    generate_unique_key (str "FAC001") (str "123456") (some (str "secretA")) true =
      generate_unique_key (str "FAC001") (str "123456") (some (str "secretA")) true :=
  C7_deterministic_keyed_correlation.1 _ _ _ _ _ _ _ _ rfl rfl rfl rfl

/-! ## C8: the date-of-birth generator can raise on a reachable draw -/

/-- C8 (failing input): for the 8-digit date of birth `19320101` (a leap
birth year) and `datetime.today().year = 2025`, the draw month = 2,
day = 29 is reachable (`29 ≤ monthrange(1932, 2)[1]`, and the day is drawn
against the original, pre-clamp year), the age trips the 90-year clamp
(`2025 − 1932 ≥ 90`), and the clamped year 1935 is not a leap year, so
`datetime(1935, 2, 29)` raises `ValueError` — the generator does not return
a valid date. -/
theorem C8_dob_failing_input :
    (1 ≤ 2 ∧ 2 ≤ 12 ∧ 1 ≤ 29 ∧ 29 ≤ daysInMonth 1932 2) ∧
    90 ≤ 2025 - 1932 ∧
    isLeap 1932 = true ∧ isLeap (2025 - 90) = false ∧
    generate_fake_dob 2025 2 29 (str "19320101") = none := by decide

/-! ## PID-rewrite field lemmas (for C10 and C5) -/

theorem getD_set_ne {l : List Str} {i j : Nat} (h : i ≠ j) (v : Str) :
    (l.set i v).getD j [] = l.getD j [] := by
  simp [List.getD_eq_getElem?_getD, List.getElem?_set_ne h]

theorem getD_set_self {l : List Str} {i : Nat} (h : i < l.length) (v : Str) :
    (l.set i v).getD i [] = v := by
  simp [List.getD_eq_getElem?_getD, List.getElem?_set_self h]

theorem padPID_le_length (line : Str) : 22 ≤ (padPID line).length := by
  simp only [padPID, List.length_append, List.length_replicate]
  omega

theorem padPID_getD_lt (line : Str) (j : Nat) (hj : j < (pySplit '|' line).length) :
    (padPID line).getD j [] = (pySplit '|' line).getD j [] := by
  simp [padPID, List.getD_eq_getElem?_getD, List.getElem?_append_left hj]

theorem deidPIDFields_length (d : DeidDict) (line : Str) :
    (deidPIDFields d line).length = (padPID line).length := by
  simp only [deidPIDFields]
  split_ifs <;> simp [List.length_set]

/-- Fields at non-designated positions are untouched by the `PID` rewrite. -/
theorem deidPIDFields_frame (d : DeidDict) (line : Str) (j : Nat)
    (hj : j ∉ designatedPID) :
    (deidPIDFields d line).getD j [] = (padPID line).getD j [] := by
  have h3 : (3 : Nat) ≠ j := fun h => hj (h ▸ (by decide : (3 : Nat) ∈ designatedPID))
  have h4 : (4 : Nat) ≠ j := fun h => hj (h ▸ (by decide : (4 : Nat) ∈ designatedPID))
  have h5 : (5 : Nat) ≠ j := fun h => hj (h ▸ (by decide : (5 : Nat) ∈ designatedPID))
  have h6 : (6 : Nat) ≠ j := fun h => hj (h ▸ (by decide : (6 : Nat) ∈ designatedPID))
  have h7 : (7 : Nat) ≠ j := fun h => hj (h ▸ (by decide : (7 : Nat) ∈ designatedPID))
  have h8 : (8 : Nat) ≠ j := fun h => hj (h ▸ (by decide : (8 : Nat) ∈ designatedPID))
  have h9 : (9 : Nat) ≠ j := fun h => hj (h ▸ (by decide : (9 : Nat) ∈ designatedPID))
  have h11 : (11 : Nat) ≠ j := fun h => hj (h ▸ (by decide : (11 : Nat) ∈ designatedPID))
  have h13 : (13 : Nat) ≠ j := fun h => hj (h ▸ (by decide : (13 : Nat) ∈ designatedPID))
  have h14 : (14 : Nat) ≠ j := fun h => hj (h ▸ (by decide : (14 : Nat) ∈ designatedPID))
  have h18 : (18 : Nat) ≠ j := fun h => hj (h ▸ (by decide : (18 : Nat) ∈ designatedPID))
  have h19 : (19 : Nat) ≠ j := fun h => hj (h ▸ (by decide : (19 : Nat) ∈ designatedPID))
  have h21 : (21 : Nat) ≠ j := fun h => hj (h ▸ (by decide : (21 : Nat) ∈ designatedPID))
  simp only [deidPIDFields]
  split_ifs <;>
    simp only [getD_set_ne h3, getD_set_ne h4, getD_set_ne h5, getD_set_ne h6,
      getD_set_ne h7, getD_set_ne h8, getD_set_ne h9, getD_set_ne h11,
      getD_set_ne h13, getD_set_ne h14, getD_set_ne h18, getD_set_ne h19,
      getD_set_ne h21]

theorem deidPIDFields_at3 (d : DeidDict) (line : Str) :
    (deidPIDFields d line).getD 3 [] =
      (if pyTruthy d.new_pid_3_account = true then
        preserve_carets ((padPID line).getD 3 []) d.new_pid_3 ++ '~' ::
          preserve_carets (str "dummy^^^^AN") d.new_pid_3_account
      else preserve_carets ((padPID line).getD 3 []) d.new_pid_3) := by
  have hl := padPID_le_length line
  by_cases hacc : pyTruthy d.new_pid_3_account = true
  · simp only [deidPIDFields, if_pos hacc, List.length_set, ge_iff_le, hl, if_true,
      getD_set_ne (by decide : (4 : Nat) ≠ 3),
      getD_set_ne (by decide : (5 : Nat) ≠ 3),
      getD_set_ne (by decide : (6 : Nat) ≠ 3),
      getD_set_ne (by decide : (7 : Nat) ≠ 3),
      getD_set_ne (by decide : (8 : Nat) ≠ 3),
      getD_set_ne (by decide : (9 : Nat) ≠ 3),
      getD_set_ne (by decide : (11 : Nat) ≠ 3),
      getD_set_ne (by decide : (13 : Nat) ≠ 3),
      getD_set_ne (by decide : (14 : Nat) ≠ 3),
      getD_set_ne (by decide : (18 : Nat) ≠ 3),
      getD_set_ne (by decide : (19 : Nat) ≠ 3),
      getD_set_ne (by decide : (21 : Nat) ≠ 3)]
    rw [getD_set_self (by (repeat rw [List.length_set]); omega),
      getD_set_self (by (repeat rw [List.length_set]); omega)]
  · simp only [deidPIDFields, if_neg hacc, List.length_set, ge_iff_le, hl, if_true,
      getD_set_ne (by decide : (4 : Nat) ≠ 3),
      getD_set_ne (by decide : (5 : Nat) ≠ 3),
      getD_set_ne (by decide : (6 : Nat) ≠ 3),
      getD_set_ne (by decide : (7 : Nat) ≠ 3),
      getD_set_ne (by decide : (8 : Nat) ≠ 3),
      getD_set_ne (by decide : (9 : Nat) ≠ 3),
      getD_set_ne (by decide : (11 : Nat) ≠ 3),
      getD_set_ne (by decide : (13 : Nat) ≠ 3),
      getD_set_ne (by decide : (14 : Nat) ≠ 3),
      getD_set_ne (by decide : (18 : Nat) ≠ 3),
      getD_set_ne (by decide : (19 : Nat) ≠ 3),
      getD_set_ne (by decide : (21 : Nat) ≠ 3)]
    rw [getD_set_self (by (repeat rw [List.length_set]); omega)]

theorem deidPIDFields_at4 (d : DeidDict) (line : Str) :
    (deidPIDFields d line).getD 4 [] =
      preserve_carets ((padPID line).getD 4 []) d.new_pid_4 := by
  have hl := padPID_le_length line
  by_cases hacc : pyTruthy d.new_pid_3_account = true
  · simp only [deidPIDFields, if_pos hacc, List.length_set, ge_iff_le, hl, if_true,
      getD_set_ne (by decide : (3 : Nat) ≠ 4),
      getD_set_ne (by decide : (5 : Nat) ≠ 4),
      getD_set_ne (by decide : (6 : Nat) ≠ 4),
      getD_set_ne (by decide : (7 : Nat) ≠ 4),
      getD_set_ne (by decide : (8 : Nat) ≠ 4),
      getD_set_ne (by decide : (9 : Nat) ≠ 4),
      getD_set_ne (by decide : (11 : Nat) ≠ 4),
      getD_set_ne (by decide : (13 : Nat) ≠ 4),
      getD_set_ne (by decide : (14 : Nat) ≠ 4),
      getD_set_ne (by decide : (18 : Nat) ≠ 4),
      getD_set_ne (by decide : (19 : Nat) ≠ 4),
      getD_set_ne (by decide : (21 : Nat) ≠ 4)]
    rw [getD_set_self (by (repeat rw [List.length_set]); omega)]
  · simp only [deidPIDFields, if_neg hacc, List.length_set, ge_iff_le, hl, if_true,
      getD_set_ne (by decide : (3 : Nat) ≠ 4),
      getD_set_ne (by decide : (5 : Nat) ≠ 4),
      getD_set_ne (by decide : (6 : Nat) ≠ 4),
      getD_set_ne (by decide : (7 : Nat) ≠ 4),
      getD_set_ne (by decide : (8 : Nat) ≠ 4),
      getD_set_ne (by decide : (9 : Nat) ≠ 4),
      getD_set_ne (by decide : (11 : Nat) ≠ 4),
      getD_set_ne (by decide : (13 : Nat) ≠ 4),
      getD_set_ne (by decide : (14 : Nat) ≠ 4),
      getD_set_ne (by decide : (18 : Nat) ≠ 4),
      getD_set_ne (by decide : (19 : Nat) ≠ 4),
      getD_set_ne (by decide : (21 : Nat) ≠ 4)]
    rw [getD_set_self (by (repeat rw [List.length_set]); omega)]

theorem deidPIDFields_at5 (d : DeidDict) (line : Str) :
    (deidPIDFields d line).getD 5 [] =
      preserve_carets ((padPID line).getD 5 []) d.new_pid_5 := by
  have hl := padPID_le_length line
  by_cases hacc : pyTruthy d.new_pid_3_account = true
  · simp only [deidPIDFields, if_pos hacc, List.length_set, ge_iff_le, hl, if_true,
      getD_set_ne (by decide : (3 : Nat) ≠ 5),
      getD_set_ne (by decide : (4 : Nat) ≠ 5),
      getD_set_ne (by decide : (6 : Nat) ≠ 5),
      getD_set_ne (by decide : (7 : Nat) ≠ 5),
      getD_set_ne (by decide : (8 : Nat) ≠ 5),
      getD_set_ne (by decide : (9 : Nat) ≠ 5),
      getD_set_ne (by decide : (11 : Nat) ≠ 5),
      getD_set_ne (by decide : (13 : Nat) ≠ 5),
      getD_set_ne (by decide : (14 : Nat) ≠ 5),
      getD_set_ne (by decide : (18 : Nat) ≠ 5),
      getD_set_ne (by decide : (19 : Nat) ≠ 5),
      getD_set_ne (by decide : (21 : Nat) ≠ 5)]
    rw [getD_set_self (by (repeat rw [List.length_set]); omega)]
  · simp only [deidPIDFields, if_neg hacc, List.length_set, ge_iff_le, hl, if_true,
      getD_set_ne (by decide : (3 : Nat) ≠ 5),
      getD_set_ne (by decide : (4 : Nat) ≠ 5),
      getD_set_ne (by decide : (6 : Nat) ≠ 5),
      getD_set_ne (by decide : (7 : Nat) ≠ 5),
      getD_set_ne (by decide : (8 : Nat) ≠ 5),
      getD_set_ne (by decide : (9 : Nat) ≠ 5),
      getD_set_ne (by decide : (11 : Nat) ≠ 5),
      getD_set_ne (by decide : (13 : Nat) ≠ 5),
      getD_set_ne (by decide : (14 : Nat) ≠ 5),
      getD_set_ne (by decide : (18 : Nat) ≠ 5),
      getD_set_ne (by decide : (19 : Nat) ≠ 5),
      getD_set_ne (by decide : (21 : Nat) ≠ 5)]
    rw [getD_set_self (by (repeat rw [List.length_set]); omega)]

theorem deidPIDFields_at6 (d : DeidDict) (line : Str) :
    (deidPIDFields d line).getD 6 [] =
      preserve_carets ((padPID line).getD 6 []) d.new_pid_6 := by
  have hl := padPID_le_length line
  by_cases hacc : pyTruthy d.new_pid_3_account = true
  · simp only [deidPIDFields, if_pos hacc, List.length_set, ge_iff_le, hl, if_true,
      getD_set_ne (by decide : (3 : Nat) ≠ 6),
      getD_set_ne (by decide : (4 : Nat) ≠ 6),
      getD_set_ne (by decide : (5 : Nat) ≠ 6),
      getD_set_ne (by decide : (7 : Nat) ≠ 6),
      getD_set_ne (by decide : (8 : Nat) ≠ 6),
      getD_set_ne (by decide : (9 : Nat) ≠ 6),
      getD_set_ne (by decide : (11 : Nat) ≠ 6),
      getD_set_ne (by decide : (13 : Nat) ≠ 6),
      getD_set_ne (by decide : (14 : Nat) ≠ 6),
      getD_set_ne (by decide : (18 : Nat) ≠ 6),
      getD_set_ne (by decide : (19 : Nat) ≠ 6),
      getD_set_ne (by decide : (21 : Nat) ≠ 6)]
    rw [getD_set_self (by (repeat rw [List.length_set]); omega)]
  · simp only [deidPIDFields, if_neg hacc, List.length_set, ge_iff_le, hl, if_true,
      getD_set_ne (by decide : (3 : Nat) ≠ 6),
      getD_set_ne (by decide : (4 : Nat) ≠ 6),
      getD_set_ne (by decide : (5 : Nat) ≠ 6),
      getD_set_ne (by decide : (7 : Nat) ≠ 6),
      getD_set_ne (by decide : (8 : Nat) ≠ 6),
      getD_set_ne (by decide : (9 : Nat) ≠ 6),
      getD_set_ne (by decide : (11 : Nat) ≠ 6),
      getD_set_ne (by decide : (13 : Nat) ≠ 6),
      getD_set_ne (by decide : (14 : Nat) ≠ 6),
      getD_set_ne (by decide : (18 : Nat) ≠ 6),
      getD_set_ne (by decide : (19 : Nat) ≠ 6),
      getD_set_ne (by decide : (21 : Nat) ≠ 6)]
    rw [getD_set_self (by (repeat rw [List.length_set]); omega)]

theorem deidPIDFields_at7 (d : DeidDict) (line : Str) :
    (deidPIDFields d line).getD 7 [] =
      preserve_carets ((padPID line).getD 7 []) d.new_pid_7 := by
  have hl := padPID_le_length line
  by_cases hacc : pyTruthy d.new_pid_3_account = true
  · simp only [deidPIDFields, if_pos hacc, List.length_set, ge_iff_le, hl, if_true,
      getD_set_ne (by decide : (3 : Nat) ≠ 7),
      getD_set_ne (by decide : (4 : Nat) ≠ 7),
      getD_set_ne (by decide : (5 : Nat) ≠ 7),
      getD_set_ne (by decide : (6 : Nat) ≠ 7),
      getD_set_ne (by decide : (8 : Nat) ≠ 7),
      getD_set_ne (by decide : (9 : Nat) ≠ 7),
      getD_set_ne (by decide : (11 : Nat) ≠ 7),
      getD_set_ne (by decide : (13 : Nat) ≠ 7),
      getD_set_ne (by decide : (14 : Nat) ≠ 7),
      getD_set_ne (by decide : (18 : Nat) ≠ 7),
      getD_set_ne (by decide : (19 : Nat) ≠ 7),
      getD_set_ne (by decide : (21 : Nat) ≠ 7)]
    rw [getD_set_self (by (repeat rw [List.length_set]); omega)]
  · simp only [deidPIDFields, if_neg hacc, List.length_set, ge_iff_le, hl, if_true,
      getD_set_ne (by decide : (3 : Nat) ≠ 7),
      getD_set_ne (by decide : (4 : Nat) ≠ 7),
      getD_set_ne (by decide : (5 : Nat) ≠ 7),
      getD_set_ne (by decide : (6 : Nat) ≠ 7),
      getD_set_ne (by decide : (8 : Nat) ≠ 7),
      getD_set_ne (by decide : (9 : Nat) ≠ 7),
      getD_set_ne (by decide : (11 : Nat) ≠ 7),
      getD_set_ne (by decide : (13 : Nat) ≠ 7),
      getD_set_ne (by decide : (14 : Nat) ≠ 7),
      getD_set_ne (by decide : (18 : Nat) ≠ 7),
      getD_set_ne (by decide : (19 : Nat) ≠ 7),
      getD_set_ne (by decide : (21 : Nat) ≠ 7)]
    rw [getD_set_self (by (repeat rw [List.length_set]); omega)]

theorem deidPIDFields_at8 (d : DeidDict) (line : Str) :
    (deidPIDFields d line).getD 8 [] =
      preserve_carets ((padPID line).getD 8 []) d.new_pid_8 := by
  have hl := padPID_le_length line
  by_cases hacc : pyTruthy d.new_pid_3_account = true
  · simp only [deidPIDFields, if_pos hacc, List.length_set, ge_iff_le, hl, if_true,
      getD_set_ne (by decide : (3 : Nat) ≠ 8),
      getD_set_ne (by decide : (4 : Nat) ≠ 8),
      getD_set_ne (by decide : (5 : Nat) ≠ 8),
      getD_set_ne (by decide : (6 : Nat) ≠ 8),
      getD_set_ne (by decide : (7 : Nat) ≠ 8),
      getD_set_ne (by decide : (9 : Nat) ≠ 8),
      getD_set_ne (by decide : (11 : Nat) ≠ 8),
      getD_set_ne (by decide : (13 : Nat) ≠ 8),
      getD_set_ne (by decide : (14 : Nat) ≠ 8),
      getD_set_ne (by decide : (18 : Nat) ≠ 8),
      getD_set_ne (by decide : (19 : Nat) ≠ 8),
      getD_set_ne (by decide : (21 : Nat) ≠ 8)]
    rw [getD_set_self (by (repeat rw [List.length_set]); omega)]
  · simp only [deidPIDFields, if_neg hacc, List.length_set, ge_iff_le, hl, if_true,
      getD_set_ne (by decide : (3 : Nat) ≠ 8),
      getD_set_ne (by decide : (4 : Nat) ≠ 8),
      getD_set_ne (by decide : (5 : Nat) ≠ 8),
      getD_set_ne (by decide : (6 : Nat) ≠ 8),
      getD_set_ne (by decide : (7 : Nat) ≠ 8),
      getD_set_ne (by decide : (9 : Nat) ≠ 8),
      getD_set_ne (by decide : (11 : Nat) ≠ 8),
      getD_set_ne (by decide : (13 : Nat) ≠ 8),
      getD_set_ne (by decide : (14 : Nat) ≠ 8),
      getD_set_ne (by decide : (18 : Nat) ≠ 8),
      getD_set_ne (by decide : (19 : Nat) ≠ 8),
      getD_set_ne (by decide : (21 : Nat) ≠ 8)]
    rw [getD_set_self (by (repeat rw [List.length_set]); omega)]

theorem deidPIDFields_at9 (d : DeidDict) (line : Str) :
    (deidPIDFields d line).getD 9 [] =
      preserve_carets ((padPID line).getD 9 []) d.new_pid_9 := by
  have hl := padPID_le_length line
  by_cases hacc : pyTruthy d.new_pid_3_account = true
  · simp only [deidPIDFields, if_pos hacc, List.length_set, ge_iff_le, hl, if_true,
      getD_set_ne (by decide : (3 : Nat) ≠ 9),
      getD_set_ne (by decide : (4 : Nat) ≠ 9),
      getD_set_ne (by decide : (5 : Nat) ≠ 9),
      getD_set_ne (by decide : (6 : Nat) ≠ 9),
      getD_set_ne (by decide : (7 : Nat) ≠ 9),
      getD_set_ne (by decide : (8 : Nat) ≠ 9),
      getD_set_ne (by decide : (11 : Nat) ≠ 9),
      getD_set_ne (by decide : (13 : Nat) ≠ 9),
      getD_set_ne (by decide : (14 : Nat) ≠ 9),
      getD_set_ne (by decide : (18 : Nat) ≠ 9),
      getD_set_ne (by decide : (19 : Nat) ≠ 9),
      getD_set_ne (by decide : (21 : Nat) ≠ 9)]
    rw [getD_set_self (by (repeat rw [List.length_set]); omega)]
  · simp only [deidPIDFields, if_neg hacc, List.length_set, ge_iff_le, hl, if_true,
      getD_set_ne (by decide : (3 : Nat) ≠ 9),
      getD_set_ne (by decide : (4 : Nat) ≠ 9),
      getD_set_ne (by decide : (5 : Nat) ≠ 9),
      getD_set_ne (by decide : (6 : Nat) ≠ 9),
      getD_set_ne (by decide : (7 : Nat) ≠ 9),
      getD_set_ne (by decide : (8 : Nat) ≠ 9),
      getD_set_ne (by decide : (11 : Nat) ≠ 9),
      getD_set_ne (by decide : (13 : Nat) ≠ 9),
      getD_set_ne (by decide : (14 : Nat) ≠ 9),
      getD_set_ne (by decide : (18 : Nat) ≠ 9),
      getD_set_ne (by decide : (19 : Nat) ≠ 9),
      getD_set_ne (by decide : (21 : Nat) ≠ 9)]
    rw [getD_set_self (by (repeat rw [List.length_set]); omega)]

theorem deidPIDFields_at11 (d : DeidDict) (line : Str) :
    (deidPIDFields d line).getD 11 [] =
      pyJoin '^' ([[], dictGet d.new_pid_11 (str "city") [],
        dictGet d.new_pid_11 (str "state") [], dictGet d.new_pid_11 (str "zipcode") []] ++
        List.replicate ((pySplit '^' ((padPID line).getD 11 [])).length - 4) []) := by
  have hl := padPID_le_length line
  by_cases hacc : pyTruthy d.new_pid_3_account = true
  · simp only [deidPIDFields, if_pos hacc, List.length_set, ge_iff_le, hl, if_true,
      getD_set_ne (by decide : (3 : Nat) ≠ 11),
      getD_set_ne (by decide : (4 : Nat) ≠ 11),
      getD_set_ne (by decide : (5 : Nat) ≠ 11),
      getD_set_ne (by decide : (6 : Nat) ≠ 11),
      getD_set_ne (by decide : (7 : Nat) ≠ 11),
      getD_set_ne (by decide : (8 : Nat) ≠ 11),
      getD_set_ne (by decide : (9 : Nat) ≠ 11),
      getD_set_ne (by decide : (13 : Nat) ≠ 11),
      getD_set_ne (by decide : (14 : Nat) ≠ 11),
      getD_set_ne (by decide : (18 : Nat) ≠ 11),
      getD_set_ne (by decide : (19 : Nat) ≠ 11),
      getD_set_ne (by decide : (21 : Nat) ≠ 11)]
    rw [getD_set_self (by (repeat rw [List.length_set]); omega)]
    simp
  · simp only [deidPIDFields, if_neg hacc, List.length_set, ge_iff_le, hl, if_true,
      getD_set_ne (by decide : (3 : Nat) ≠ 11),
      getD_set_ne (by decide : (4 : Nat) ≠ 11),
      getD_set_ne (by decide : (5 : Nat) ≠ 11),
      getD_set_ne (by decide : (6 : Nat) ≠ 11),
      getD_set_ne (by decide : (7 : Nat) ≠ 11),
      getD_set_ne (by decide : (8 : Nat) ≠ 11),
      getD_set_ne (by decide : (9 : Nat) ≠ 11),
      getD_set_ne (by decide : (13 : Nat) ≠ 11),
      getD_set_ne (by decide : (14 : Nat) ≠ 11),
      getD_set_ne (by decide : (18 : Nat) ≠ 11),
      getD_set_ne (by decide : (19 : Nat) ≠ 11),
      getD_set_ne (by decide : (21 : Nat) ≠ 11)]
    rw [getD_set_self (by (repeat rw [List.length_set]); omega)]
    simp

theorem deidPIDFields_at13 (d : DeidDict) (line : Str) :
    (deidPIDFields d line).getD 13 [] =
      preserve_carets ((padPID line).getD 13 []) d.new_pid_13 := by
  have hl := padPID_le_length line
  by_cases hacc : pyTruthy d.new_pid_3_account = true
  · simp only [deidPIDFields, if_pos hacc, List.length_set, ge_iff_le, hl, if_true,
      getD_set_ne (by decide : (3 : Nat) ≠ 13),
      getD_set_ne (by decide : (4 : Nat) ≠ 13),
      getD_set_ne (by decide : (5 : Nat) ≠ 13),
      getD_set_ne (by decide : (6 : Nat) ≠ 13),
      getD_set_ne (by decide : (7 : Nat) ≠ 13),
      getD_set_ne (by decide : (8 : Nat) ≠ 13),
      getD_set_ne (by decide : (9 : Nat) ≠ 13),
      getD_set_ne (by decide : (11 : Nat) ≠ 13),
      getD_set_ne (by decide : (14 : Nat) ≠ 13),
      getD_set_ne (by decide : (18 : Nat) ≠ 13),
      getD_set_ne (by decide : (19 : Nat) ≠ 13),
      getD_set_ne (by decide : (21 : Nat) ≠ 13)]
    rw [getD_set_self (by (repeat rw [List.length_set]); omega)]
  · simp only [deidPIDFields, if_neg hacc, List.length_set, ge_iff_le, hl, if_true,
      getD_set_ne (by decide : (3 : Nat) ≠ 13),
      getD_set_ne (by decide : (4 : Nat) ≠ 13),
      getD_set_ne (by decide : (5 : Nat) ≠ 13),
      getD_set_ne (by decide : (6 : Nat) ≠ 13),
      getD_set_ne (by decide : (7 : Nat) ≠ 13),
      getD_set_ne (by decide : (8 : Nat) ≠ 13),
      getD_set_ne (by decide : (9 : Nat) ≠ 13),
      getD_set_ne (by decide : (11 : Nat) ≠ 13),
      getD_set_ne (by decide : (14 : Nat) ≠ 13),
      getD_set_ne (by decide : (18 : Nat) ≠ 13),
      getD_set_ne (by decide : (19 : Nat) ≠ 13),
      getD_set_ne (by decide : (21 : Nat) ≠ 13)]
    rw [getD_set_self (by (repeat rw [List.length_set]); omega)]

theorem deidPIDFields_at14 (d : DeidDict) (line : Str) :
    (deidPIDFields d line).getD 14 [] =
      preserve_carets ((padPID line).getD 14 []) d.new_pid_14 := by
  have hl := padPID_le_length line
  by_cases hacc : pyTruthy d.new_pid_3_account = true
  · simp only [deidPIDFields, if_pos hacc, List.length_set, ge_iff_le, hl, if_true,
      getD_set_ne (by decide : (3 : Nat) ≠ 14),
      getD_set_ne (by decide : (4 : Nat) ≠ 14),
      getD_set_ne (by decide : (5 : Nat) ≠ 14),
      getD_set_ne (by decide : (6 : Nat) ≠ 14),
      getD_set_ne (by decide : (7 : Nat) ≠ 14),
      getD_set_ne (by decide : (8 : Nat) ≠ 14),
      getD_set_ne (by decide : (9 : Nat) ≠ 14),
      getD_set_ne (by decide : (11 : Nat) ≠ 14),
      getD_set_ne (by decide : (13 : Nat) ≠ 14),
      getD_set_ne (by decide : (18 : Nat) ≠ 14),
      getD_set_ne (by decide : (19 : Nat) ≠ 14),
      getD_set_ne (by decide : (21 : Nat) ≠ 14)]
    rw [getD_set_self (by (repeat rw [List.length_set]); omega)]
  · simp only [deidPIDFields, if_neg hacc, List.length_set, ge_iff_le, hl, if_true,
      getD_set_ne (by decide : (3 : Nat) ≠ 14),
      getD_set_ne (by decide : (4 : Nat) ≠ 14),
      getD_set_ne (by decide : (5 : Nat) ≠ 14),
      getD_set_ne (by decide : (6 : Nat) ≠ 14),
      getD_set_ne (by decide : (7 : Nat) ≠ 14),
      getD_set_ne (by decide : (8 : Nat) ≠ 14),
      getD_set_ne (by decide : (9 : Nat) ≠ 14),
      getD_set_ne (by decide : (11 : Nat) ≠ 14),
      getD_set_ne (by decide : (13 : Nat) ≠ 14),
      getD_set_ne (by decide : (18 : Nat) ≠ 14),
      getD_set_ne (by decide : (19 : Nat) ≠ 14),
      getD_set_ne (by decide : (21 : Nat) ≠ 14)]
    rw [getD_set_self (by (repeat rw [List.length_set]); omega)]

theorem deidPIDFields_at18 (d : DeidDict) (line : Str) :
    (deidPIDFields d line).getD 18 [] =
      preserve_carets ((padPID line).getD 18 []) d.new_pid_18 := by
  have hl := padPID_le_length line
  by_cases hacc : pyTruthy d.new_pid_3_account = true
  · simp only [deidPIDFields, if_pos hacc, List.length_set, ge_iff_le, hl, if_true,
      getD_set_ne (by decide : (3 : Nat) ≠ 18),
      getD_set_ne (by decide : (4 : Nat) ≠ 18),
      getD_set_ne (by decide : (5 : Nat) ≠ 18),
      getD_set_ne (by decide : (6 : Nat) ≠ 18),
      getD_set_ne (by decide : (7 : Nat) ≠ 18),
      getD_set_ne (by decide : (8 : Nat) ≠ 18),
      getD_set_ne (by decide : (9 : Nat) ≠ 18),
      getD_set_ne (by decide : (11 : Nat) ≠ 18),
      getD_set_ne (by decide : (13 : Nat) ≠ 18),
      getD_set_ne (by decide : (14 : Nat) ≠ 18),
      getD_set_ne (by decide : (19 : Nat) ≠ 18),
      getD_set_ne (by decide : (21 : Nat) ≠ 18)]
    rw [getD_set_self (by (repeat rw [List.length_set]); omega)]
  · simp only [deidPIDFields, if_neg hacc, List.length_set, ge_iff_le, hl, if_true,
      getD_set_ne (by decide : (3 : Nat) ≠ 18),
      getD_set_ne (by decide : (4 : Nat) ≠ 18),
      getD_set_ne (by decide : (5 : Nat) ≠ 18),
      getD_set_ne (by decide : (6 : Nat) ≠ 18),
      getD_set_ne (by decide : (7 : Nat) ≠ 18),
      getD_set_ne (by decide : (8 : Nat) ≠ 18),
      getD_set_ne (by decide : (9 : Nat) ≠ 18),
      getD_set_ne (by decide : (11 : Nat) ≠ 18),
      getD_set_ne (by decide : (13 : Nat) ≠ 18),
      getD_set_ne (by decide : (14 : Nat) ≠ 18),
      getD_set_ne (by decide : (19 : Nat) ≠ 18),
      getD_set_ne (by decide : (21 : Nat) ≠ 18)]
    rw [getD_set_self (by (repeat rw [List.length_set]); omega)]

theorem deidPIDFields_at19 (d : DeidDict) (line : Str) :
    (deidPIDFields d line).getD 19 [] =
      preserve_carets ((padPID line).getD 19 []) d.new_pid_19 := by
  have hl := padPID_le_length line
  by_cases hacc : pyTruthy d.new_pid_3_account = true
  · simp only [deidPIDFields, if_pos hacc, List.length_set, ge_iff_le, hl, if_true,
      getD_set_ne (by decide : (3 : Nat) ≠ 19),
      getD_set_ne (by decide : (4 : Nat) ≠ 19),
      getD_set_ne (by decide : (5 : Nat) ≠ 19),
      getD_set_ne (by decide : (6 : Nat) ≠ 19),
      getD_set_ne (by decide : (7 : Nat) ≠ 19),
      getD_set_ne (by decide : (8 : Nat) ≠ 19),
      getD_set_ne (by decide : (9 : Nat) ≠ 19),
      getD_set_ne (by decide : (11 : Nat) ≠ 19),
      getD_set_ne (by decide : (13 : Nat) ≠ 19),
      getD_set_ne (by decide : (14 : Nat) ≠ 19),
      getD_set_ne (by decide : (18 : Nat) ≠ 19),
      getD_set_ne (by decide : (21 : Nat) ≠ 19)]
    rw [getD_set_self (by (repeat rw [List.length_set]); omega)]
  · simp only [deidPIDFields, if_neg hacc, List.length_set, ge_iff_le, hl, if_true,
      getD_set_ne (by decide : (3 : Nat) ≠ 19),
      getD_set_ne (by decide : (4 : Nat) ≠ 19),
      getD_set_ne (by decide : (5 : Nat) ≠ 19),
      getD_set_ne (by decide : (6 : Nat) ≠ 19),
      getD_set_ne (by decide : (7 : Nat) ≠ 19),
      getD_set_ne (by decide : (8 : Nat) ≠ 19),
      getD_set_ne (by decide : (9 : Nat) ≠ 19),
      getD_set_ne (by decide : (11 : Nat) ≠ 19),
      getD_set_ne (by decide : (13 : Nat) ≠ 19),
      getD_set_ne (by decide : (14 : Nat) ≠ 19),
      getD_set_ne (by decide : (18 : Nat) ≠ 19),
      getD_set_ne (by decide : (21 : Nat) ≠ 19)]
    rw [getD_set_self (by (repeat rw [List.length_set]); omega)]

theorem deidPIDFields_at21 (d : DeidDict) (line : Str) :
    (deidPIDFields d line).getD 21 [] =
      preserve_carets ((padPID line).getD 21 []) d.new_pid_21 := by
  have hl := padPID_le_length line
  by_cases hacc : pyTruthy d.new_pid_3_account = true
  · simp only [deidPIDFields, if_pos hacc, List.length_set, ge_iff_le, hl, if_true,
      getD_set_ne (by decide : (3 : Nat) ≠ 21),
      getD_set_ne (by decide : (4 : Nat) ≠ 21),
      getD_set_ne (by decide : (5 : Nat) ≠ 21),
      getD_set_ne (by decide : (6 : Nat) ≠ 21),
      getD_set_ne (by decide : (7 : Nat) ≠ 21),
      getD_set_ne (by decide : (8 : Nat) ≠ 21),
      getD_set_ne (by decide : (9 : Nat) ≠ 21),
      getD_set_ne (by decide : (11 : Nat) ≠ 21),
      getD_set_ne (by decide : (13 : Nat) ≠ 21),
      getD_set_ne (by decide : (14 : Nat) ≠ 21),
      getD_set_ne (by decide : (18 : Nat) ≠ 21),
      getD_set_ne (by decide : (19 : Nat) ≠ 21)]
    rw [getD_set_self (by (repeat rw [List.length_set]); omega)]
  · simp only [deidPIDFields, if_neg hacc, List.length_set, ge_iff_le, hl, if_true,
      getD_set_ne (by decide : (3 : Nat) ≠ 21),
      getD_set_ne (by decide : (4 : Nat) ≠ 21),
      getD_set_ne (by decide : (5 : Nat) ≠ 21),
      getD_set_ne (by decide : (6 : Nat) ≠ 21),
      getD_set_ne (by decide : (7 : Nat) ≠ 21),
      getD_set_ne (by decide : (8 : Nat) ≠ 21),
      getD_set_ne (by decide : (9 : Nat) ≠ 21),
      getD_set_ne (by decide : (11 : Nat) ≠ 21),
      getD_set_ne (by decide : (13 : Nat) ≠ 21),
      getD_set_ne (by decide : (14 : Nat) ≠ 21),
      getD_set_ne (by decide : (18 : Nat) ≠ 21),
      getD_set_ne (by decide : (19 : Nat) ≠ 21)]
    rw [getD_set_self (by (repeat rw [List.length_set]); omega)]

/-! ## `mapAccum` lemmas and C10 -/

theorem mapAccum_length {α β σ : Type} (f : α → σ → β × σ) :
    ∀ (l : List α) (st : σ), (mapAccum f l st).1.length = l.length := by
  intro l
  induction l with
  | nil => intro st; rfl
  | cons x xs ih => intro st; simp [mapAccum, ih]

theorem mapAccum_getD {α β σ : Type} (f : α → σ → β × σ) (bα : α) (bβ : β) :
    ∀ (l : List α) (st : σ) (i : Nat), i < l.length →
      ∃ st', (mapAccum f l st).1.getD i bβ = (f (l.getD i bα) st').1 := by
  intro l
  induction l with
  | nil => intro st i hi; simp at hi
  | cons x xs ih =>
      intro st i hi
      cases i with
      | zero => exact ⟨st, rfl⟩
      | succ i =>
          obtain ⟨st', h⟩ := ih (f x st).2 i (by simpa using hi)
          exact ⟨st', h⟩

/-- A field that is not classified as a physician field passes through the
physician mapping unchanged, with the mapping state untouched. -/
theorem map_physician_field_id (po : Nat → PhysRand) (v : Str) (ps : PhysState)
    (h : ¬ is_physician_field v = true) : map_physician_field po v ps = (v, ps) := by
  simp [map_physician_field, h]

/-- C10 (frame effect): the de-identification rewrite of one message
processes its lines in place — the output has exactly one line per input
line, in order; a line that is neither a `PID` nor a `PV1` segment is
reproduced byte-identically; in a rewritten `PID` segment every
non-designated field position keeps the source bytes; and a `PV1` field not
classified as a physician field is returned unchanged by the physician
mapping. -/
theorem C10_frame_effect (po : Nat → PhysRand) (d : DeidDict) (msg : Str)
    (ps : PhysState) :
    deidentify_hl7_message po msg d ps =
      (pyJoin '\n' (mapAccum (deidLine po d) (pySplitlines msg) ps).1,
       (mapAccum (deidLine po d) (pySplitlines msg) ps).2) ∧
    (mapAccum (deidLine po d) (pySplitlines msg) ps).1.length =
      (pySplitlines msg).length ∧
    (∀ i, i < (pySplitlines msg).length →
      ¬ pyStartswith (str "PID") ((pySplitlines msg).getD i []) = true →
      ¬ pyStartswith (str "PV1") ((pySplitlines msg).getD i []) = true →
      (mapAccum (deidLine po d) (pySplitlines msg) ps).1.getD i [] =
        (pySplitlines msg).getD i []) ∧
    (∀ (line : Str) (ps' : PhysState), pyStartswith (str "PID") line = true →
      deidLine po d line ps' = (pyJoin '|' (deidPIDFields d line), ps')) ∧
    (∀ (line : Str) (j : Nat), j < (pySplit '|' line).length → j ∉ designatedPID →
      (deidPIDFields d line).getD j [] = (pySplit '|' line).getD j []) ∧
    (∀ (v : Str) (ps' : PhysState), ¬ is_physician_field v = true →
      map_physician_field po v ps' = (v, ps')) := by
  refine ⟨rfl, mapAccum_length _ _ _, ?_, ?_, ?_, map_physician_field_id po⟩
  · intro i hi hpid hpv1
    obtain ⟨st', h⟩ := mapAccum_getD (deidLine po d) [] [] (pySplitlines msg) ps i hi
    rw [h]
    simp only [List.getD_eq_getElem?_getD] at hpid hpv1
    simp [deidLine, hpid, hpv1]
  · intro line ps' hpid
    simp [deidLine, hpid]
  · intro line j hj hdes
    rw [deidPIDFields_frame d line j hdes, padPID_getD_lt line j hj]

/-- Witness for C10 on a concrete three-line message: the `EVN` line (not a
rewritten segment type) is reproduced exactly, and the non-designated `PID`
field 2 keeps its bytes. -/
theorem C10_witness :
    (mapAccum (deidLine (fun _ => default) default)
        (pySplitlines (str "MSH|^~\\&|App|FAC\nEVN|A04|2025\nPID|1|KEEP|123456"))
        ([], 0)).1.getD 1 [] =
      (pySplitlines (str "MSH|^~\\&|App|FAC\nEVN|A04|2025\nPID|1|KEEP|123456")).getD 1 [] ∧
    (deidPIDFields default (str "PID|1|KEEP|123456")).getD 2 [] =
      (pySplit '|' (str "PID|1|KEEP|123456")).getD 2 [] := by
  constructor
  · exact (C10_frame_effect (fun _ => default) default
      (str "MSH|^~\\&|App|FAC\nEVN|A04|2025\nPID|1|KEEP|123456") ([], 0)).2.2.1 1
      (by decide) (by decide) (by decide)
  · exact (C10_frame_effect (fun _ => default) default
      (str "MSH|^~\\&|App|FAC\nEVN|A04|2025\nPID|1|KEEP|123456") ([], 0)).2.2.2.2.1
      (str "PID|1|KEEP|123456") 2 (by decide) (by decide)


/-! ## C5: absence preservation -/

/-- Rewriting a field with an empty replacement yields only empty
components. -/
theorem preserve_carets_empty (f : Str) :
    pySplit '^' (preserve_carets f []) =
      List.replicate (pySplit '^' f).length [] := by
  have h := preserve_carets_split f []
  have hpos := pySplit_length_pos '^' f
  by_cases hlt : (pySplit '^' ([] : Str)).length < (pySplit '^' f).length
  · rw [if_pos hlt] at h
    rw [h]
    show List.replicate 1 ([] : Str) ++ _ = _
    rw [← List.replicate_add]
    congr 1
    have : (pySplit '^' ([] : Str)).length = 1 := rfl
    omega
  · rw [if_neg hlt] at h
    rw [h]
    have h1 : (pySplit '^' ([] : Str)).length = 1 := rfl
    have : (pySplit '^' f).length = 1 := by omega
    rw [this]
    rfl

theorem pass1_insert_lookup_nil (cfg : Config) (am : List (Str × Str)) (acct : Str)
    (h : alookup [] am = none) : alookup [] (pass1_insert cfg am acct) = none := by
  unfold pass1_insert
  split_ifs with hc
  · rw [alookup_append_right h]
    have hne : acct ≠ [] := by
      intro hcon
      subst hcon
      simp [pyTruthy] at hc
    simp only [alookup]
    rw [if_neg (fun hcon => hne hcon.symm)]
  · exact h

/-- The empty string is never a key of the pass-1 account registry. -/
theorem build_account_map_lookup_nil (cfg : Config) (msgs : List Str) :
    alookup ([] : Str) (build_account_map cfg msgs) = none := by
  unfold build_account_map
  have : ∀ (init : List (Str × Str)), alookup [] init = none →
      alookup ([] : Str) (msgs.foldl (pass1_step cfg) init) = none := by
    induction msgs with
    | nil => intro init h; exact h
    | cons m ms ih =>
        intro init h
        simp only [List.foldl_cons]
        exact ih _ (pass1_insert_lookup_nil cfg _ _ (pass1_insert_lookup_nil cfg _ _ h))
  exact this [] rfl

theorem dictGet_nil (k dflt : Str) : dictGet [] k dflt = dflt := rfl

/-- C5 (absence preservation), amended: for a record whose identity bundle
is created from its OWN extracted data — the first record of its
correlation-key group, including the first keyless record — when an identity
attribute is absent or empty, the corresponding surrogate in the identity
bundle is empty (for the address, the empty dict), and the rewritten `PID`
field carries no content: every `^`-component of the rewritten field text is
the empty string — including the address field PID-11 — so no synthetic
value is fabricated for a field the source never set.  For a later record of
the same key the cached dict of the group's first record is applied instead,
and the per-record claim fails: see `C5_counterexample`. -/
theorem C5_absence_preservation (cfg : Config) (msgs : List Str) (uid : Str)
    (od : PatientData) (phys : List Str) (sk : Option Str) (um : Bool) (ty : Nat)
    (rb : RandBundle) (d : DeidDict)
    (hd : create_deidentified_dict uid od phys (build_account_map cfg msgs)
      sk um ty rb = some d) :
    ((od.pid_3 = [] → d.new_pid_3 = []) ∧
     (od.pid_4 = [] → d.new_pid_4 = []) ∧
     (od.pid_5 = [] → d.new_pid_5 = []) ∧
     (od.pid_6 = [] → d.new_pid_6 = []) ∧
     (od.pid_7 = [] → d.new_pid_7 = []) ∧
     (od.pid_8 = [] → d.new_pid_8 = []) ∧
     (od.pid_9 = [] → d.new_pid_9 = []) ∧
     (od.pid_11 = [] → d.new_pid_11 = []) ∧
     (od.pid_13 = [] → d.new_pid_13 = []) ∧
     (od.pid_14 = [] → d.new_pid_14 = []) ∧
     (od.pid_18 = [] → d.new_pid_18 = []) ∧
     (od.pid_19 = [] → d.new_pid_19 = []) ∧
     (od.pid_21 = [] → d.new_pid_21 = []) ∧
     (od.pid_3_account = [] → d.new_pid_3_account = [])) ∧
    ((∀ line : Str, d.new_pid_3 = [] → d.new_pid_3_account = [] →
        ∀ p ∈ pySplit '^' ((deidPIDFields d line).getD 3 []), p = []) ∧
     (∀ line : Str, d.new_pid_4 = [] →
        ∀ p ∈ pySplit '^' ((deidPIDFields d line).getD 4 []), p = []) ∧
     (∀ line : Str, d.new_pid_5 = [] →
        ∀ p ∈ pySplit '^' ((deidPIDFields d line).getD 5 []), p = []) ∧
     (∀ line : Str, d.new_pid_6 = [] →
        ∀ p ∈ pySplit '^' ((deidPIDFields d line).getD 6 []), p = []) ∧
     (∀ line : Str, d.new_pid_7 = [] →
        ∀ p ∈ pySplit '^' ((deidPIDFields d line).getD 7 []), p = []) ∧
     (∀ line : Str, d.new_pid_8 = [] →
        ∀ p ∈ pySplit '^' ((deidPIDFields d line).getD 8 []), p = []) ∧
     (∀ line : Str, d.new_pid_9 = [] →
        ∀ p ∈ pySplit '^' ((deidPIDFields d line).getD 9 []), p = []) ∧
     (∀ line : Str, d.new_pid_11 = [] →
        ∀ p ∈ pySplit '^' ((deidPIDFields d line).getD 11 []), p = []) ∧
     (∀ line : Str, d.new_pid_13 = [] →
        ∀ p ∈ pySplit '^' ((deidPIDFields d line).getD 13 []), p = []) ∧
     (∀ line : Str, d.new_pid_14 = [] →
        ∀ p ∈ pySplit '^' ((deidPIDFields d line).getD 14 []), p = []) ∧
     (∀ line : Str, d.new_pid_18 = [] →
        ∀ p ∈ pySplit '^' ((deidPIDFields d line).getD 18 []), p = []) ∧
     (∀ line : Str, d.new_pid_19 = [] →
        ∀ p ∈ pySplit '^' ((deidPIDFields d line).getD 19 []), p = []) ∧
     (∀ line : Str, d.new_pid_21 = [] →
        ∀ p ∈ pySplit '^' ((deidPIDFields d line).getD 21 []), p = [])) := by
  constructor
  · -- dictionary level, by inversion of the construction
    have hnil := build_account_map_lookup_nil cfg msgs
    simp only [create_deidentified_dict] at hd
    split at hd
    · rename_i p7 sd heq1 heq2
      injection hd with hd
      subst hd
      refine ⟨?_, ?_, ?_, ?_, ?_, ?_, ?_, ?_, ?_, ?_, ?_, ?_, ?_, ?_⟩ <;>
        intro hp
      · simp [hp, pyTruthy]
      · simp [hp, pyTruthy]
      · simp [hp, pyTruthy]
      · simp [hp, pyTruthy]
      · rw [hp] at heq1
        simp [pyTruthy] at heq1
        simp [← heq1]
      · exact hp
      · simp [hp, pyTruthy]
      · simp [hp, pyTruthy]
      · simp [hp, pyTruthy]
      · simp [hp, pyTruthy]
      · simp [hp, dictGet, hnil]
      · simp [hp, pyTruthy]
      · simp [hp, pyTruthy]
      · simp [hp, dictGet, hnil]
    · exact absurd hd (by simp)
  · -- message level
    refine ⟨?_, ?_, ?_, ?_, ?_, ?_, ?_, ?_, ?_, ?_, ?_, ?_, ?_⟩
    · intro line h3 hacc p hp
      have hcond : pyTruthy d.new_pid_3_account = false := by rw [hacc]; rfl
      rw [deidPIDFields_at3, hcond] at hp
      rw [if_neg (by simp)] at hp
      rw [h3, preserve_carets_empty] at hp
      exact List.eq_of_mem_replicate hp
    · intro line hK p hp
      rw [deidPIDFields_at4, hK, preserve_carets_empty] at hp
      exact List.eq_of_mem_replicate hp
    · intro line hK p hp
      rw [deidPIDFields_at5, hK, preserve_carets_empty] at hp
      exact List.eq_of_mem_replicate hp
    · intro line hK p hp
      rw [deidPIDFields_at6, hK, preserve_carets_empty] at hp
      exact List.eq_of_mem_replicate hp
    · intro line hK p hp
      rw [deidPIDFields_at7, hK, preserve_carets_empty] at hp
      exact List.eq_of_mem_replicate hp
    · intro line hK p hp
      rw [deidPIDFields_at8, hK, preserve_carets_empty] at hp
      exact List.eq_of_mem_replicate hp
    · intro line hK p hp
      rw [deidPIDFields_at9, hK, preserve_carets_empty] at hp
      exact List.eq_of_mem_replicate hp
    · intro line h11 p hp
      rw [deidPIDFields_at11, h11, dictGet_nil, dictGet_nil, dictGet_nil] at hp
      rw [pySplit_pyJoin (by simp) ?pieces] at hp
      case pieces =>
        intro q hq
        rcases List.mem_append.mp hq with h | h
        · simp at h
          simp [h]
        · rw [List.eq_of_mem_replicate h]
          simp
      rcases List.mem_append.mp hp with h | h
      · simp at h
        exact h
      · exact List.eq_of_mem_replicate h
    · intro line hK p hp
      rw [deidPIDFields_at13, hK, preserve_carets_empty] at hp
      exact List.eq_of_mem_replicate hp
    · intro line hK p hp
      rw [deidPIDFields_at14, hK, preserve_carets_empty] at hp
      exact List.eq_of_mem_replicate hp
    · intro line hK p hp
      rw [deidPIDFields_at18, hK, preserve_carets_empty] at hp
      exact List.eq_of_mem_replicate hp
    · intro line hK p hp
      rw [deidPIDFields_at19, hK, preserve_carets_empty] at hp
      exact List.eq_of_mem_replicate hp
    · intro line hK p hp
      rw [deidPIDFields_at21, hK, preserve_carets_empty] at hp
      exact List.eq_of_mem_replicate hp

/-- Concrete identity bundle for the C5 witness: built from a record with
every attribute absent, against the (empty) pass-1 registry of an empty
batch. -/
def wC5dict : DeidDict :=
  (create_deidentified_dict [] {} [] (build_account_map {} []) none false 2026
    default).getD default

/-- Witness for C5: with every source attribute empty, the synthetic name
and address are empty. -/
theorem C5_witness : wC5dict.new_pid_5 = [] ∧ wC5dict.new_pid_11 = [] := by
  have hd : create_deidentified_dict [] {} [] (build_account_map {} []) none false
      2026 default = some wC5dict := rfl
  have h := C5_absence_preservation {} [] [] {} [] none false 2026 default wC5dict hd
  exact ⟨h.1.2.2.1 rfl, h.1.2.2.2.2.2.2.2.1 rfl⟩

/-! ## C5, continued: the cache-hit refutation -/

def wC5b : RandBundle :=
  { nameMale := str "John Doe", nameFemale := str "Ann Roe", nameAny := str "Kim Poe",
    mrn := 1234567890, dobMonth := 5, dobDay := 10, ssn := str "111-22-3333",
    city := str "Fakecity", zipcode := str "99999", altLetter := 66, altDigits := 2345,
    lastName := str "Surro", phone1 := str "555-0001", phone2 := str "555-0002" }

def wC5orc : Oracles := { bundle := fun _ => wC5b, phys := fun _ => default }

/-- First record of patient (FACX, 123456), with a date of birth. -/
def wC5m1 : Str :=
  str "MSH|^~\\&|App|FACX\nPID|1||123456||Smith^Joe||19800101|M"

/-- Second record of the same patient (same correlation key), whose `PID-7`
is empty: the source never set a date of birth on this record. -/
def wC5m2 : Str :=
  str "MSH|^~\\&|App|FACX\nPID|1||123456||Smith^Joe|||M"

def wC5res : List RecordOut := (pass2Results {} wC5orc [wC5m1, wC5m2]).getD []

/-- Counterexample to C5 as stated: the second record's extracted `PID-7` is
empty, yet the `PID-7` field of its de-identified output message is the
non-empty synthetic date of birth `19800510` — the surrogate fabricated for
the FIRST record of the correlation-key group, whose dict the cache-hit
rewrite reuses.  A synthetic value is fabricated into a field this record's
source never set. -/
theorem C5_counterexample :
    (extract_patient_data wC5m2).pid_7 = [] ∧
    (pySplit '|' ((pySplitlines ((wC5res.getD 1 default).deid)).getD 1 [])).getD 7 []
      = str "19800510" ∧
    (wC5res.getD 0 default).dict.new_pid_7 = str "19800510" ∧
    str "19800510" ≠ ([] : Str) := by
  decide

/-! ## Pass-2 state invariants (for C1, C2, C3, C9) -/

/-- Inversion of one pass-2 step: the record's bookkeeping fields, and the
identity-registry behaviour (cache hit leaves the registry unchanged; a miss
appends the newly created bundle under the record's correlation key). -/
theorem pass2_core_inv (cfg : Config) (o : Oracles) (am : List (Str × Str))
    (st : Pass2State) (msg : Str) (st' : Pass2State) (r : RecordOut)
    (h : pass2_core cfg o am st msg = some (st', r)) :
    r.orig = msg ∧ r.dt = msgSortKey msg ∧ r.unique_key = msgKeyOf cfg msg ∧
    r.facility = (extract_fields_from_message msg).1 ∧
    r.pid_3 = (extract_fields_from_message msg).2 ∧
    st'.mother_map = (substituteAccounts cfg am st.mother_map
      (extract_patient_data msg)).elim st.mother_map (fun pm => pm.2) ∧
    ((alookup (msgKeyOf cfg msg) st.identity_map = some r.dict ∧
      st'.identity_map = st.identity_map) ∨
     (alookup (msgKeyOf cfg msg) st.identity_map = none ∧
      st'.identity_map = st.identity_map ++ [(msgKeyOf cfg msg, r.dict)] ∧
      ∃ pd mm,
        substituteAccounts cfg am st.mother_map (extract_patient_data msg) =
          some (pd, mm) ∧
        create_deidentified_dict (msgKeyOf cfg msg) pd
          (extract_physician_fields o.phys msg st.phys).1 am cfg.secret
          cfg.use_hmac cfg.todayYear (o.bundle st.createCount) = some r.dict)) := by
  simp only [pass2_core, bind, Option.bind] at h
  split at h
  · exact absurd h (by simp)
  · rename_i pm hsub
    split at h
    · rename_i d hlk
      simp only [pure, Option.some.injEq, Prod.mk.injEq] at h
      obtain ⟨hst, hr⟩ := h
      subst hst
      subst hr
      exact ⟨rfl, rfl, rfl, rfl, rfl, by rw [hsub]; rfl, Or.inl ⟨hlk, rfl⟩⟩
    · rename_i hlk
      simp only [] at h
      split at h
      · exact absurd h (by simp)
      · rename_i d hcd
        simp only [pure, Option.some.injEq, Prod.mk.injEq] at h
        obtain ⟨hst, hr⟩ := h
        subst hst
        subst hr
        exact ⟨rfl, rfl, rfl, rfl, rfl, by rw [hsub]; rfl,
          Or.inr ⟨hlk, rfl, pm.1, pm.2, by rw [hsub], hcd⟩⟩

theorem pass2_core_mono (cfg : Config) (o : Oracles) (am : List (Str × Str))
    (st : Pass2State) (msg : Str) (st' : Pass2State) (r : RecordOut)
    (h : pass2_core cfg o am st msg = some (st', r)) :
    ∀ k v, alookup k st.identity_map = some v → alookup k st'.identity_map = some v := by
  intro k v hk
  rcases (pass2_core_inv cfg o am st msg st' r h).2.2.2.2.2.2 with ⟨_, hmap⟩ | ⟨_, hmap, _⟩
  · rw [hmap]; exact hk
  · rw [hmap]; exact alookup_append_left hk

theorem pass2_core_domain (cfg : Config) (o : Oracles) (am : List (Str × Str))
    (st : Pass2State) (msg : Str) (st' : Pass2State) (r : RecordOut)
    (h : pass2_core cfg o am st msg = some (st', r)) :
    ∀ k, (alookup k st'.identity_map).isSome ↔
      ((alookup k st.identity_map).isSome ∨ k = msgKeyOf cfg msg) := by
  intro k
  rcases (pass2_core_inv cfg o am st msg st' r h).2.2.2.2.2.2 with
    ⟨hlk, hmap⟩ | ⟨hlk, hmap, _⟩
  · rw [hmap]
    constructor
    · exact fun hs => Or.inl hs
    · rintro (hs | hk)
      · exact hs
      · subst hk; rw [hlk]; rfl
  · rw [hmap]
    constructor
    · intro hs
      by_cases hm : (alookup k st.identity_map).isSome
      · exact Or.inl hm
      · have hnone : alookup k st.identity_map = none := by
          cases hcase : alookup k st.identity_map with
          | none => rfl
          | some v => rw [hcase] at hm; simp at hm
        rw [alookup_append_right hnone] at hs
        right
        by_contra hne
        simp [alookup, fun hcon => hne hcon] at hs
    · rintro (hs | hk)
      · obtain ⟨v, hv⟩ := Option.isSome_iff_exists.mp hs
        rw [alookup_append_left hv]; rfl
      · subst hk
        rw [alookup_self_append hlk]; rfl

theorem pass2_core_final (cfg : Config) (o : Oracles) (am : List (Str × Str))
    (st : Pass2State) (msg : Str) (st' : Pass2State) (r : RecordOut)
    (h : pass2_core cfg o am st msg = some (st', r)) :
    alookup r.unique_key st'.identity_map = some r.dict := by
  obtain ⟨-, -, hkey, -, -, -, hbeh⟩ := pass2_core_inv cfg o am st msg st' r h
  rw [hkey]
  rcases hbeh with ⟨hlk, hmap⟩ | ⟨hlk, hmap, _⟩
  · rw [hmap]; exact hlk
  · rw [hmap]; exact alookup_self_append hlk

/-- The master invariant of pass 2: one output record per message in input
order, and for each message the step ran from a state whose
identity-registry domain is exactly the initial domain plus the correlation
keys of the earlier messages; bindings made along the way survive to the
final state. -/
theorem pass2Run_spec (cfg : Config) (o : Oracles) (am : List (Str × Str)) :
    ∀ (ms : List Str) (st0 : Pass2State) (res0 : List RecordOut)
      (stF : Pass2State) (resF : List RecordOut),
      pass2Run cfg o am ms (st0, res0) = some (stF, resF) →
      (∀ k v, alookup k st0.identity_map = some v →
        alookup k stF.identity_map = some v) ∧
      ∃ news, resF = res0 ++ news ∧ news.length = ms.length ∧
        (∀ i, i < ms.length → ∃ stPre stPost,
          pass2_core cfg o am stPre (ms.getD i []) =
            some (stPost, news.getD i default) ∧
          (∀ k, (alookup k stPre.identity_map).isSome ↔
            ((alookup k st0.identity_map).isSome ∨
              k ∈ (ms.take i).map (msgKeyOf cfg))) ∧
          (∀ k v, alookup k stPost.identity_map = some v →
            alookup k stF.identity_map = some v)) := by
  intro ms
  induction ms with
  | nil =>
      intro st0 res0 stF resF h
      simp only [pass2Run, Option.some.injEq, Prod.mk.injEq] at h
      obtain ⟨hst, hres⟩ := h
      subst hst
      subst hres
      exact ⟨fun k v hv => hv, [], by simp, rfl, by simp⟩
  | cons m ms ih =>
      intro st0 res0 stF resF h
      simp only [pass2Run] at h
      split at h
      · exact absurd h (by simp)
      · rename_i sr hcore
        obtain ⟨ihmono, news', hres, hlen, hsteps⟩ := ih sr.1 (res0 ++ [sr.2]) stF resF h
        have hcore' : pass2_core cfg o am st0 m = some (sr.1, sr.2) := by
          rw [hcore]
        constructor
        · intro k v hv
          exact ihmono k v (pass2_core_mono cfg o am st0 m sr.1 sr.2 hcore' k v hv)
        · refine ⟨sr.2 :: news', by simpa using hres, by simpa using hlen, ?_⟩
          intro i hi
          cases i with
          | zero =>
              refine ⟨st0, sr.1, hcore', ?_, ihmono⟩
              intro k
              simp
          | succ i =>
              obtain ⟨stPre, stPost, hstep, hdom, hmono⟩ :=
                hsteps i (by simpa using hi)
              refine ⟨stPre, stPost, hstep, ?_, hmono⟩
              intro k
              rw [hdom k]
              rw [pass2_core_domain cfg o am st0 m sr.1 sr.2 hcore' k]
              simp only [List.take_succ_cons, List.map_cons, List.mem_cons]
              tauto

theorem pyTruthy_iff (s : Str) : pyTruthy s = true ↔ s ≠ [] := by
  cases s <;> simp [pyTruthy]

/-- Facts about every record of the pre-sort output: its surrogate bundle is
the one filed in the final identity registry under its correlation key, its
sort key is derived from its own message text, and its correlation key is
the keyed hash of its (facility, primary-ID) pair when both are truthy and
empty otherwise. -/
theorem pass2Results_members (cfg : Config) (o : Oracles) (msgs : List Str)
    (res : List RecordOut) (h : pass2Results cfg o msgs = some res) :
    res.length = msgs.length ∧
    (∀ i, i < msgs.length → (res.getD i default).orig = msgs.getD i []) ∧
    ∃ ident : List (Str × DeidDict), ∀ r ∈ res,
      alookup r.unique_key ident = some r.dict ∧
      r.dt = msgSortKey r.orig ∧
      r.unique_key = (if optTruthy r.facility && optTruthy r.pid_3 then
        generate_unique_key (r.facility.getD []) (r.pid_3.getD [])
          cfg.secret cfg.use_hmac else []) := by
  simp only [pass2Results, Option.map_eq_some'] at h
  obtain ⟨⟨stF, res'⟩, hrun, hres⟩ := h
  simp only at hres
  subst hres
  obtain ⟨hmono, news, hres, hlen, hsteps⟩ :=
    pass2Run_spec cfg o (build_account_map cfg msgs) msgs ({} : Pass2State) []
      stF res' hrun
  simp only [List.nil_append] at hres
  subst hres
  refine ⟨hlen, ?_, stF.identity_map, ?_⟩
  · intro i hi
    obtain ⟨stPre, stPost, hstep, -, -⟩ := hsteps i hi
    exact (pass2_core_inv cfg o (build_account_map cfg msgs) stPre
      (msgs.getD i []) stPost _ hstep).1
  · intro r hr
    obtain ⟨i, hi, hget⟩ := List.mem_iff_getElem.mp hr
    have hgetD : res'.getD i default = r := by
      rw [List.getD_eq_getElem?_getD, List.getElem?_eq_getElem hi, hget]
      rfl
    have hi' : i < msgs.length := by rw [← hlen]; exact hi
    obtain ⟨stPre, stPost, hstep, -, hkeep⟩ := hsteps i hi'
    rw [hgetD] at hstep
    obtain ⟨horig, hdt, hkey, hfac, hpid, -, -⟩ :=
      pass2_core_inv cfg o (build_account_map cfg msgs) stPre
        (msgs.getD i []) stPost r hstep
    refine ⟨?_, ?_, ?_⟩
    · exact hkeep _ _ (pass2_core_final cfg o (build_account_map cfg msgs) stPre
        (msgs.getD i []) stPost r hstep)
    · rw [hdt, horig]
    · rw [hkey, hfac, hpid]
      rfl

/-! ## C2: idempotent surrogate mapping -/

/-- C2: surrogates are served from the registries, never regenerated.
(1) Any two output records of one run that share a correlation key carry
the identical surrogate identity bundle; (2) in particular, two records
with equal truthy facility and equal truthy primary ID (e.g. `FAC001`,
`123456`) receive byte-identical synthetic name, date of birth and
identifier; (3) a physician literal already in the mapping is answered from
the mapping, which is left unchanged; (4) inserting an account number that
is already registered leaves the pass-1 registry unchanged. -/
theorem C2_idempotent_surrogates (cfg : Config) (o : Oracles) (msgs : List Str)
    (res : List RecordOut) (h : pass2Results cfg o msgs = some res) :
    (∀ r1 ∈ res, ∀ r2 ∈ res, r1.unique_key = r2.unique_key → r1.dict = r2.dict) ∧
    (∀ r1 ∈ res, ∀ r2 ∈ res, r1.facility = r2.facility → r1.pid_3 = r2.pid_3 →
      optTruthy r1.facility = true → optTruthy r1.pid_3 = true →
      r1.dict.new_pid_5 = r2.dict.new_pid_5 ∧
      r1.dict.new_pid_7 = r2.dict.new_pid_7 ∧
      r1.dict.new_pid_3 = r2.dict.new_pid_3) ∧
    (∀ (po : Nat → PhysRand) (v fv : Str) (ps : PhysState),
      is_physician_field v = true → alookup v ps.1 = some fv →
      map_physician_field po v ps = (fv, ps)) ∧
    (∀ (cfg' : Config) (am : List (Str × Str)) (a v : Str),
      alookup a am = some v → pass1_insert cfg' am a = am) := by
  obtain ⟨-, -, ident, hmem⟩ := pass2Results_members cfg o msgs res h
  have hsame : ∀ r1 ∈ res, ∀ r2 ∈ res, r1.unique_key = r2.unique_key →
      r1.dict = r2.dict := by
    intro r1 h1 r2 h2 hk
    have e1 := (hmem r1 h1).1
    have e2 := (hmem r2 h2).1
    rw [hk] at e1
    rw [e1] at e2
    exact Option.some.inj e2
  refine ⟨hsame, ?_, ?_, ?_⟩
  · intro r1 h1 r2 h2 hfac hpid htf htp
    have hk : r1.unique_key = r2.unique_key := by
      rw [(hmem r1 h1).2.2, (hmem r2 h2).2.2, hfac, hpid]
    have := hsame r1 h1 r2 h2 hk
    rw [this]
    exact ⟨rfl, rfl, rfl⟩
  · intro po v fv ps hphys hlk
    simp [map_physician_field, hphys, hlk]
  · intro cfg' am a v hlk
    simp [pass1_insert, hlk]

/-- Oracle and batch for the C2 witness: the two random-draw bundles differ,
yet the two records (same facility `FAC001`, same primary ID `123456`)
receive one identical bundle, because the second is a registry hit. -/
def wC2b1 : RandBundle :=
  { nameMale := str "John Doe", nameFemale := str "Ann Roe", nameAny := str "Kim Poe",
    mrn := 1234567890, dobMonth := 5, dobDay := 10, ssn := str "111-22-3333",
    city := str "Fakecity", zipcode := str "99999", altLetter := 66, altDigits := 2345,
    lastName := str "Surro", phone1 := str "555-0001", phone2 := str "555-0002" }

def wC2b2 : RandBundle := { wC2b1 with nameMale := str "Max Mustermann", mrn := 42 }

def wC2orc : Oracles :=
  { bundle := fun n => if n = 0 then wC2b1 else wC2b2, phys := fun _ => default }

def wC2m : Str :=
  str "MSH|^~\\&|App|FAC001\nPID|1||123456||Smith^Joe||19800101|M|"

def wC2res : List RecordOut := (pass2Results {} wC2orc [wC2m, wC2m]).getD []

/-- Witness for C2: in the concrete two-record batch the second record
reuses the first record's bundle — identical synthetic name, date of birth
and identifier — although the second creation draw would have produced a
different name and identifier. -/
theorem C2_witness :
    (wC2res.getD 0 default).dict.new_pid_5 = (wC2res.getD 1 default).dict.new_pid_5 ∧
    (wC2res.getD 0 default).dict.new_pid_7 = (wC2res.getD 1 default).dict.new_pid_7 ∧
    (wC2res.getD 0 default).dict.new_pid_3 = (wC2res.getD 1 default).dict.new_pid_3 := by
  have h : pass2Results {} wC2orc [wC2m, wC2m] = some wC2res := by decide
  exact (C2_idempotent_surrogates {} wC2orc [wC2m, wC2m] wC2res h).2.1
    (wC2res.getD 0 default) (by decide) (wC2res.getD 1 default) (by decide)
    (by decide) (by decide) (by decide) (by decide)

/-! ## C3: unlinkable records (corrected) -/

def wC3b1 : RandBundle :=
  { nameMale := str "John Doe", nameFemale := str "Ann Roe", nameAny := str "Kim Poe",
    mrn := 1111111111, dobMonth := 3, dobDay := 4, ssn := str "111-22-3333",
    city := str "Acity", zipcode := str "11111", altLetter := 65, altDigits := 1000,
    lastName := str "Alast", phone1 := str "555-0001", phone2 := str "555-0002" }

def wC3b2 : RandBundle :=
  { wC3b1 with nameMale := str "Oth Per", nameFemale := str "Ano Nam", mrn := 22 }

def wC3orc : Oracles :=
  { bundle := fun n => if n = 0 then wC3b1 else wC3b2, phys := fun _ => default }

/-- Two distinct records with an empty sending facility (`MSH-4` empty):
both are unlinkable. -/
def wC3m1 : Str := str "MSH|^~\\&|App|\nPID|1||111111||Aa^Bb||19800101|M|"

def wC3m2 : Str := str "MSH|^~\\&|App|\nPID|1||222222||Cc^Dd||19900202|F|"

def wC3res : List RecordOut := (pass2Results {} wC3orc [wC3m1, wC3m2]).getD []

/-- Counterexample to C3 as stated: two distinct unlinkable records (empty
facility, different patients, and an oracle whose second creation draw
differs from the first) are both processed, both receive the empty
correlation key — and they SHARE one identical synthetic identity bundle,
because `identity_map` files both under the empty-string key.  The claim
says two distinct unlinkable records never share a bundle. -/
theorem C3_counterexample :
    optTruthy (extract_fields_from_message wC3m1).1 = false ∧
    optTruthy (extract_fields_from_message wC3m2).1 = false ∧
    wC3m1 ≠ wC3m2 ∧
    (extract_patient_data wC3m1).pid_5 ≠ (extract_patient_data wC3m2).pid_5 ∧
    wC3orc.bundle 0 ≠ wC3orc.bundle 1 ∧
    pass2Results {} wC3orc [wC3m1, wC3m2] = some wC3res ∧
    wC3res.length = 2 ∧
    (wC3res.getD 0 default).unique_key = [] ∧
    (wC3res.getD 1 default).unique_key = [] ∧
    (wC3res.getD 0 default).dict = (wC3res.getD 1 default).dict := by decide

/-- C3 as amended: a record with empty/absent facility or primary ID is
processed without failing and receives the empty correlation key; but its
surrogate identity is NOT independent — all unlinkable records of a batch
share the single identity bundle filed under the empty key. -/
theorem C3_amended_unlinkable_share (cfg : Config) (o : Oracles)
    (msgs : List Str) (res : List RecordOut)
    (h : pass2Results cfg o msgs = some res)
    (r1 : RecordOut) (h1 : r1 ∈ res) (r2 : RecordOut) (h2 : r2 ∈ res)
    (hu1 : optTruthy r1.facility = false ∨ optTruthy r1.pid_3 = false)
    (hu2 : optTruthy r2.facility = false ∨ optTruthy r2.pid_3 = false) :
    res.length = msgs.length ∧ r1.unique_key = [] ∧ r2.unique_key = [] ∧
    r1.dict = r2.dict := by
  obtain ⟨hlen, -, ident, hmem⟩ := pass2Results_members cfg o msgs res h
  have hk1 : r1.unique_key = [] := by
    rw [(hmem r1 h1).2.2]
    rcases hu1 with hu | hu <;> simp [hu]
  have hk2 : r2.unique_key = [] := by
    rw [(hmem r2 h2).2.2]
    rcases hu2 with hu | hu <;> simp [hu]
  refine ⟨hlen, hk1, hk2, ?_⟩
  have e1 := (hmem r1 h1).1
  have e2 := (hmem r2 h2).1
  rw [hk1] at e1
  rw [hk2] at e2
  rw [e1] at e2
  exact Option.some.inj e2

/-- Witness for the amended C3 at the concrete unlinkable batch. -/
theorem C3_witness :
    (wC3res.getD 0 default).unique_key = [] ∧
    (wC3res.getD 0 default).dict = (wC3res.getD 1 default).dict := by
  have h : pass2Results {} wC3orc [wC3m1, wC3m2] = some wC3res := by decide
  have := C3_amended_unlinkable_share {} wC3orc [wC3m1, wC3m2] wC3res h
    (wC3res.getD 0 default) (by decide) (wC3res.getD 1 default) (by decide)
    (Or.inl (by decide)) (Or.inl (by decide))
  exact ⟨this.2.1, this.2.2.2⟩

/-! ## C1: cross-reference linkage (corrected) -/

theorem gen_account_ne_nil (v : Str) (s : Option Str) (b : Bool) :
    generate_fake_account_number v s b ≠ [] := by
  simp [generate_fake_account_number]

/-- Every value stored in the pass-1 registry is the deterministic synthetic
account number of its key. -/
theorem build_account_map_values (cfg : Config) (msgs : List Str) :
    ∀ a v, alookup a (build_account_map cfg msgs) = some v →
      v = generate_fake_account_number a cfg.secret cfg.use_hmac := by
  have hins : ∀ (am : List (Str × Str)) (acct : Str),
      (∀ a v, alookup a am = some v →
        v = generate_fake_account_number a cfg.secret cfg.use_hmac) →
      ∀ a v, alookup a (pass1_insert cfg am acct) = some v →
        v = generate_fake_account_number a cfg.secret cfg.use_hmac := by
    intro am acct H a v h
    unfold pass1_insert at h
    split_ifs at h with hc
    · cases hm : alookup a am with
      | some w =>
          rw [alookup_append_left hm] at h
          exact H a v (Option.some.inj h ▸ hm)
      | none =>
          rw [alookup_append_right hm] at h
          simp only [alookup] at h
          split_ifs at h with he
          subst he
          exact (Option.some.inj h).symm
    · exact H a v h
  have : ∀ (ms : List Str) (init : List (Str × Str)),
      (∀ a v, alookup a init = some v →
        v = generate_fake_account_number a cfg.secret cfg.use_hmac) →
      ∀ a v, alookup a (ms.foldl (pass1_step cfg) init) = some v →
        v = generate_fake_account_number a cfg.secret cfg.use_hmac := by
    intro ms
    induction ms with
    | nil => intro init H; exact H
    | cons m ms ih =>
        intro init H
        simp only [List.foldl_cons]
        exact ih _ (hins _ _ (hins _ _ H))
  exact this msgs [] (by intro a v h; simp [alookup] at h)

/-- After inserting a truthy account number, it is present. -/
theorem pass1_insert_present (cfg : Config) (am : List (Str × Str)) (acct : Str)
    (ht : pyTruthy acct = true) :
    (alookup acct (pass1_insert cfg am acct)).isSome := by
  unfold pass1_insert
  split_ifs with hc
  · cases hm : alookup acct am with
    | some w => rw [alookup_append_left hm]; rfl
    | none => rw [alookup_self_append hm]; rfl
  · simp only [ht, Bool.true_and, Bool.not_eq_true] at hc
    cases hm : alookup acct am with
    | some w => rfl
    | none => rw [hm] at hc; simp at hc

/-- Presence in the registry is preserved by later inserts. -/
theorem pass1_insert_mono (cfg : Config) (am : List (Str × Str)) (acct a : Str)
    (h : (alookup a am).isSome) : (alookup a (pass1_insert cfg am acct)).isSome := by
  unfold pass1_insert
  split_ifs with hc
  · obtain ⟨v, hv⟩ := Option.isSome_iff_exists.mp h
    rw [alookup_append_left hv]
    rfl
  · exact h

/-- Pass 1 registers the `PID-18` account number and the `PID-3` `AN`
account of every message of the batch. -/
theorem build_account_map_present (cfg : Config) (msgs : List Str) (msg : Str)
    (hm : msg ∈ msgs) :
    (pyTruthy (extract_patient_data msg).pid_18 = true →
      (alookup (extract_patient_data msg).pid_18 (build_account_map cfg msgs)).isSome) ∧
    (pyTruthy (extract_patient_data msg).pid_3_account = true →
      (alookup (extract_patient_data msg).pid_3_account
        (build_account_map cfg msgs)).isSome) := by
  have hmonofold : ∀ (ms : List Str) (init : List (Str × Str)) (a : Str),
      (alookup a init).isSome →
      (alookup a (ms.foldl (pass1_step cfg) init)).isSome := by
    intro ms
    induction ms with
    | nil => intro init a h; exact h
    | cons m ms ih =>
        intro init a h
        simp only [List.foldl_cons]
        exact ih _ a (pass1_insert_mono cfg _ _ a (pass1_insert_mono cfg _ _ a h))
  have hmain : ∀ (ms : List Str) (init : List (Str × Str)), msg ∈ ms →
      (pyTruthy (extract_patient_data msg).pid_18 = true →
        (alookup (extract_patient_data msg).pid_18
          (ms.foldl (pass1_step cfg) init)).isSome) ∧
      (pyTruthy (extract_patient_data msg).pid_3_account = true →
        (alookup (extract_patient_data msg).pid_3_account
          (ms.foldl (pass1_step cfg) init)).isSome) := by
    intro ms
    induction ms with
    | nil => intro init h; simp at h
    | cons m ms ih =>
        intro init hmem
        rcases List.mem_cons.mp hmem with heq | htail
        · subst heq
          simp only [List.foldl_cons]
          constructor
          · intro ht
            refine hmonofold ms _ _ ?_
            exact pass1_insert_mono cfg _ _ _ (pass1_insert_present cfg _ _ ht)
          · intro ht
            refine hmonofold ms _ _ ?_
            exact pass1_insert_present cfg _ _ ht
        · simp only [List.foldl_cons]
          exact ih _ htail
  exact hmain msgs [] hm

theorem subst18_spec (am : List (Str × Str)) (pd pd' : PatientData)
    (h : subst18 am pd = some pd') :
    pd'.pid_21 = pd.pid_21 ∧ pd'.pid_3_account = pd.pid_3_account ∧
    (∀ v, pyTruthy pd.pid_18 = true → alookup pd.pid_18 am = some v →
      pd'.pid_18 = v) := by
  unfold subst18 at h
  split_ifs at h with ht
  · cases hl : alookup pd.pid_18 am with
    | some w =>
        rw [hl] at h
        injection h with h
        subst h
        refine ⟨rfl, rfl, ?_⟩
        intro v _ hv
        exact Option.some.inj hv
    | none => rw [hl] at h; simp at h
  · injection h with h
    subst h
    exact ⟨rfl, rfl, fun v htt _ => absurd htt ht⟩

theorem subst3acc_spec (am : List (Str × Str)) (pd pd' : PatientData)
    (h : subst3acc am pd = some pd') :
    pd'.pid_18 = pd.pid_18 ∧ pd'.pid_21 = pd.pid_21 := by
  unfold subst3acc at h
  split_ifs at h with ht
  · cases hl : alookup pd.pid_3_account am with
    | some w =>
        rw [hl] at h
        injection h with h
        subst h
        exact ⟨rfl, rfl⟩
    | none => rw [hl] at h; simp at h
  · injection h with h
    subst h
    exact ⟨rfl, rfl⟩

theorem subst21_spec (cfg : Config) (am : List (Str × Str))
    (mm : List (Str × Str)) (pd : PatientData) :
    (subst21 cfg am mm pd).1.pid_18 = pd.pid_18 ∧
    (∀ v, pyTruthy pd.pid_21 = true → alookup pd.pid_21 am = some v →
      (subst21 cfg am mm pd).1.pid_21 = v) := by
  unfold subst21
  by_cases ht : pyTruthy pd.pid_21 = true
  · rw [if_pos ht]
    cases hl : alookup pd.pid_21 am with
    | some w =>
        refine ⟨rfl, ?_⟩
        intro v _ hv
        exact Option.some.inj hv
    | none =>
        refine ⟨rfl, ?_⟩
        intro v _ hv
        exact absurd hv (by simp)
  · rw [if_neg ht]
    exact ⟨rfl, fun v htt _ => absurd htt ht⟩

/-- The accounts substituted into the record data before identity creation:
if the pass-1 registry maps the raw truthy `PID-18` (resp. `PID-21`) value
to `v`, the substituted data carries `v` in that attribute. -/
theorem substituteAccounts_fields (cfg : Config) (am : List (Str × Str))
    (mm : List (Str × Str)) (pd pd' : PatientData) (mm' : List (Str × Str))
    (h : substituteAccounts cfg am mm pd = some (pd', mm')) :
    (∀ v, pyTruthy pd.pid_18 = true → alookup pd.pid_18 am = some v →
      pd'.pid_18 = v) ∧
    (∀ v, pyTruthy pd.pid_21 = true → alookup pd.pid_21 am = some v →
      pd'.pid_21 = v) := by
  simp only [substituteAccounts, bind, Option.bind] at h
  split at h
  · exact absurd h (by simp)
  · rename_i pd1 h18
    simp only [] at h
    split at h
    · exact absurd h (by simp)
    · rename_i pd2 h3a
      simp only [pure, Option.some.injEq] at h
      have hpd' : pd' = (subst21 cfg am mm pd2).1 := by rw [h]
      obtain ⟨ha1, hb1, hc1⟩ := subst18_spec am pd pd1 h18
      obtain ⟨ha2, hb2⟩ := subst3acc_spec am pd1 pd2 h3a
      obtain ⟨ha3, hb3⟩ := subst21_spec cfg am mm pd2
      constructor
      · intro v ht hv
        rw [hpd', ha3, ha2]
        exact hc1 v ht hv
      · intro v ht hv
        rw [hpd']
        apply hb3 v
        · rw [hb2, ha1]
          exact ht
        · rw [hb2, ha1]
          exact hv

/-- The account fields of a freshly created identity bundle are the
registry image of the (already substituted) record data. -/
theorem create_dict_accounts (uid : Str) (od : PatientData) (phys : List Str)
    (am : List (Str × Str)) (sk : Option Str) (um : Bool) (ty : Nat)
    (rb : RandBundle) (d : DeidDict)
    (hd : create_deidentified_dict uid od phys am sk um ty rb = some d) :
    d.new_pid_18 = dictGet am od.pid_18 od.pid_18 ∧
    (pyTruthy od.pid_21 = true →
      d.new_pid_21 = dictGet am od.pid_21 od.pid_21) := by
  simp only [create_deidentified_dict] at hd
  split at hd
  · injection hd with hd
    subst hd
    exact ⟨rfl, fun ht => by simp [ht]⟩
  · exact absurd hd (by simp)

/-- C1 (amended): if raw account value `A` appears as the owned account
(`PID-18`) of a record that is the first of its correlation-key group, and
as the linked-account reference (`PID-21`) of a record that is the first of
its group, then the synthetic value substituted into the first record's
account field equals the synthetic value substituted into the second
record's reference field.  (Without the first-of-group provisos the claim
fails: a later record of a group reuses the whole cached bundle of the
group's first record, including its account field — see the
counterexample.) -/
theorem C1_cross_reference_linkage (cfg : Config) (o : Oracles)
    (msgs : List Str) (res : List RecordOut)
    (h : pass2Results cfg o msgs = some res)
    (i1 i2 : Nat) (h1 : i1 < msgs.length) (h2 : i2 < msgs.length)
    (A : Str) (hA : A ≠ [])
    (hown : (extract_patient_data (msgs.getD i1 [])).pid_18 = A)
    (href : (extract_patient_data (msgs.getD i2 [])).pid_21 = A)
    (hfirst1 : ∀ j, j < i1 →
      msgKeyOf cfg (msgs.getD j []) ≠ msgKeyOf cfg (msgs.getD i1 []))
    (hfirst2 : ∀ j, j < i2 →
      msgKeyOf cfg (msgs.getD j []) ≠ msgKeyOf cfg (msgs.getD i2 [])) :
    (res.getD i1 default).dict.new_pid_18 =
      (res.getD i2 default).dict.new_pid_21 := by
  simp only [pass2Results, Option.map_eq_some'] at h
  obtain ⟨⟨stF, res'⟩, hrun, hres⟩ := h
  simp only at hres
  subst hres
  obtain ⟨hmono, news, hres, hlen, hsteps⟩ :=
    pass2Run_spec cfg o (build_account_map cfg msgs) msgs ({} : Pass2State) []
      stF res' hrun
  simp only [List.nil_append] at hres
  subst hres
  -- the shared raw value is registered by pass 1
  have hmem1 : msgs.getD i1 [] ∈ msgs := by
    rw [List.getD_eq_getElem?_getD, List.getElem?_eq_getElem h1]
    exact List.getElem_mem h1
  have htA : pyTruthy A = true := (pyTruthy_iff A).mpr hA
  have hpres : (alookup A (build_account_map cfg msgs)).isSome := by
    have := (build_account_map_present cfg msgs _ hmem1).1
    rw [hown] at this
    exact this htA
  obtain ⟨gA, hgA⟩ := Option.isSome_iff_exists.mp hpres
  have hgAval : gA = generate_fake_account_number A cfg.secret cfg.use_hmac :=
    build_account_map_values cfg msgs A gA hgA
  have hgAne : gA ≠ [] := by
    rw [hgAval]
    exact gen_account_ne_nil A cfg.secret cfg.use_hmac
  -- a record that is first of its group is a registry miss
  have hfresh : ∀ i, i < msgs.length →
      (∀ j, j < i → msgKeyOf cfg (msgs.getD j []) ≠ msgKeyOf cfg (msgs.getD i [])) →
      ∀ stPre : Pass2State,
      (∀ k, (alookup k stPre.identity_map).isSome ↔
        ((alookup k (({} : Pass2State)).identity_map).isSome ∨
          k ∈ (msgs.take i).map (msgKeyOf cfg))) →
      alookup (msgKeyOf cfg (msgs.getD i [])) stPre.identity_map = none := by
    intro i hi hfirst stPre hdom
    cases hc : alookup (msgKeyOf cfg (msgs.getD i [])) stPre.identity_map with
    | none => rfl
    | some d =>
        have hs : (alookup (msgKeyOf cfg (msgs.getD i []))
            stPre.identity_map).isSome := by rw [hc]; rfl
        rw [hdom] at hs
        rcases hs with hinit | hmemk
        · simp [alookup, Pass2State.identity_map] at hinit
        · obtain ⟨m', hm', heq⟩ := List.mem_map.mp hmemk
          obtain ⟨j, hj, hjeq⟩ := List.mem_iff_getElem.mp hm'
          have hjlen : j < i := by
            have := hj
            simp [List.length_take] at this
            omega
          have hjget : msgs.getD j [] = m' := by
            rw [List.getD_eq_getElem?_getD,
              List.getElem?_eq_getElem (lt_of_lt_of_le hjlen (le_of_lt hi))]
            rw [← hjeq, List.getElem_take]
            rfl
          exact (hfirst j hjlen (by rw [hjget]; exact heq)).elim
  -- owner record
  obtain ⟨st1, st1', hstep1, hdom1, -⟩ := hsteps i1 h1
  have hnone1 := hfresh i1 h1 hfirst1 st1 hdom1
  obtain ⟨-, -, -, -, -, -, hbeh1⟩ := pass2_core_inv cfg o _ st1 _ st1' _ hstep1
  rcases hbeh1 with ⟨hl, -⟩ | ⟨-, -, pd1, mm1, hsub1, hcd1⟩
  · rw [hnone1] at hl
    exact absurd hl (by simp)
  · obtain ⟨h18sub, -⟩ := substituteAccounts_fields cfg _ _ _ _ _ hsub1
    have hpd1 : pd1.pid_18 = gA := by
      apply h18sub gA
      · rw [hown]
        exact htA
      · rw [hown]
        exact hgA
    obtain ⟨hcd18, -⟩ := create_dict_accounts _ _ _ _ _ _ _ _ _ hcd1
    -- referencing record
    obtain ⟨st2, st2', hstep2, hdom2, -⟩ := hsteps i2 h2
    have hnone2 := hfresh i2 h2 hfirst2 st2 hdom2
    obtain ⟨-, -, -, -, -, -, hbeh2⟩ := pass2_core_inv cfg o _ st2 _ st2' _ hstep2
    rcases hbeh2 with ⟨hl, -⟩ | ⟨-, -, pd2, mm2, hsub2, hcd2⟩
    · rw [hnone2] at hl
      exact absurd hl (by simp)
    · obtain ⟨-, h21sub⟩ := substituteAccounts_fields cfg _ _ _ _ _ hsub2
      have hpd2 : pd2.pid_21 = gA := by
        apply h21sub gA
        · rw [href]
          exact htA
        · rw [href]
          exact hgA
      obtain ⟨-, hcd21⟩ := create_dict_accounts _ _ _ _ _ _ _ _ _ hcd2
      have ht21 : pyTruthy pd2.pid_21 = true := by
        rw [hpd2]
        exact (pyTruthy_iff gA).mpr hgAne
      rw [hcd18, hcd21 ht21, hpd1, hpd2]

def wC1b : RandBundle :=
  { nameMale := str "John Doe", nameFemale := str "Ann Roe", nameAny := str "Kim Poe",
    mrn := 1234567890, dobMonth := 5, dobDay := 10, ssn := str "111-22-3333",
    city := str "Fakecity", zipcode := str "99999", altLetter := 66, altDigits := 2345,
    lastName := str "Surro", phone1 := str "555-0001", phone2 := str "555-0002" }

def wC1orc : Oracles := { bundle := fun _ => wC1b, phys := fun _ => default }

/-- Record of patient (FACX, 123456) owning account `ACCTB`. -/
def wC1m1 : Str :=
  str "MSH|^~\\&|App|FACX\nPID|1||123456||Smith^Joe||19800101|M||||||||||ACCTB|||"

/-- Second record of the same patient (same correlation key), now owning
account `ACCTA`. -/
def wC1m2 : Str :=
  str "MSH|^~\\&|App|FACX\nPID|1||123456||Smith^Joe||19800101|M||||||||||ACCTA|||"

/-- Record of a different patient referencing `ACCTA` as `PID-21`. -/
def wC1m3 : Str :=
  str "MSH|^~\\&|App|FACY\nPID|1||777777||Jones^Amy||19900101|F||||||||||ACCTC|||ACCTA"

def wC1res : List RecordOut :=
  (pass2Results {} wC1orc [wC1m1, wC1m2, wC1m3]).getD []

/-- Counterexample to C1 as stated: `ACCTA` is the owned `PID-18` account
of the second record and the `PID-21` reference of the third record of the
same run, yet the synthetic value substituted into the second record's
account field differs from the one substituted into the third record's
reference field — the second record shares the first record's cached
identity bundle (same correlation key), whose account surrogate was derived
from `ACCTB`. -/
theorem C1_counterexample :
    (extract_patient_data wC1m2).pid_18 = str "ACCTA" ∧
    (extract_patient_data wC1m3).pid_21 = str "ACCTA" ∧
    pass2Results {} wC1orc [wC1m1, wC1m2, wC1m3] = some wC1res ∧
    wC1res.length = 3 ∧
    (wC1res.getD 1 default).orig = wC1m2 ∧
    (wC1res.getD 2 default).orig = wC1m3 ∧
    (wC1res.getD 1 default).dict.new_pid_18 ≠
      (wC1res.getD 2 default).dict.new_pid_21 := by decide

/-- Witness for the amended C1: in a batch where the owning record and the
referencing record are each first of their correlation-key group, the two
substituted synthetic account values coincide. -/
theorem C1_witness :
    (((pass2Results {} wC1orc [wC1m2, wC1m3]).getD []).getD 0 default).dict.new_pid_18 =
      (((pass2Results {} wC1orc [wC1m2, wC1m3]).getD []).getD 1 default).dict.new_pid_21 := by
  apply C1_cross_reference_linkage {} wC1orc [wC1m2, wC1m3]
    ((pass2Results {} wC1orc [wC1m2, wC1m3]).getD []) (by decide)
    0 1 (by decide) (by decide) (str "ACCTA") (by decide) (by decide) (by decide)
  · intro j hj
    omega
  · intro j hj
    interval_cases j
    decide

/-! ## C9: chronological stable sort with sentinel fallback -/

theorem dtKey_ge_dtMin (y m d hh mi : Nat) (hy : 1 ≤ y) (hm : 1 ≤ m)
    (hd : 1 ≤ d) : dtMin ≤ dtKey y m d hh mi := by
  unfold dtMin dtKey
  omega

theorem strptimeYmd_ge (s : Str) (k : Nat) (h : strptimeYmd s = some k) :
    dtMin ≤ k := by
  unfold strptimeYmd at h
  split at h
  · rename_i y m d hy hm hd
    split_ifs at h with hok
    · simp only [dateOK, Bool.and_eq_true, decide_eq_true_eq] at hok
      injection h with h
      subst h
      exact dtKey_ge_dtMin y m d 0 0 (by omega) (by omega) (by omega)
  · exact absurd h (by simp)

theorem strptimeYmdHM_ge (s : Str) (k : Nat) (h : strptimeYmdHM s = some k) :
    dtMin ≤ k := by
  unfold strptimeYmdHM at h
  split at h
  · rename_i y m d hh mi hy hm hd hhh hmi
    split_ifs at h with hok
    · simp only [dateOK, Bool.and_eq_true, decide_eq_true_eq] at hok
      injection h with h
      subst h
      exact dtKey_ge_dtMin y m d hh mi (by omega) (by omega) (by omega)
  · exact absurd h (by simp)

theorem strptimeYmd_getD_ge (s : Str) : dtMin ≤ (strptimeYmd s).getD dtMin := by
  cases hp : strptimeYmd s with
  | none => exact Nat.le_refl _
  | some k => exact strptimeYmd_ge s k hp

theorem strptimeYmdHM_getD_ge (s : Str) : dtMin ≤ (strptimeYmdHM s).getD dtMin := by
  cases hp : strptimeYmdHM s with
  | none => exact Nat.le_refl _
  | some k => exact strptimeYmdHM_ge s k hp

theorem parse_hl7_dateGo_ge (lines : List Str) : dtMin ≤ parse_hl7_dateGo lines := by
  induction lines with
  | nil => exact Nat.le_refl _
  | cons l rest ih =>
      unfold parse_hl7_dateGo
      simp only []
      split_ifs
      · exact strptimeYmdHM_getD_ge _
      · exact strptimeYmd_getD_ge _
      · exact ih
      · exact ih
      · exact ih

theorem msgSortKey_ge (m : Str) : dtMin ≤ msgSortKey m := by
  unfold msgSortKey
  cases pySplitlines m with
  | nil => exact Nat.le_refl _
  | cons l rest => exact parse_hl7_dateGo_ge _

/-- C9: the output batch is the pre-sort record sequence stably sorted
ascending by the chronological key: sorted, a permutation of the per-message
records (one per input message, none dropped), ties keep the original
relative order, and every record's key comes from its own message's `MSH-7`
with the `datetime.min` sentinel — which bounds every key from below, so
unparsable records sort first. -/
theorem C9_chronological_sort (cfg : Config) (o : Oracles) (msgs : List Str)
    (outs : List RecordOut) (h : processBatch cfg o msgs = some outs) :
    ∃ res : List RecordOut,
      pass2Results cfg o msgs = some res ∧
      outs = res.mergeSort (fun a b => decide (a.dt ≤ b.dt)) ∧
      outs.Perm res ∧
      res.length = msgs.length ∧
      (∀ i, i < msgs.length → (res.getD i default).orig = msgs.getD i []) ∧
      List.Pairwise (fun a b : RecordOut => a.dt ≤ b.dt) outs ∧
      (∀ a b : RecordOut, a.dt ≤ b.dt → List.Sublist [a, b] res →
        List.Sublist [a, b] outs) ∧
      (∀ r ∈ res, r.dt = msgSortKey r.orig ∧ dtMin ≤ r.dt) := by
  simp only [processBatch, Option.map_eq_some'] at h
  obtain ⟨res, hres, houts⟩ := h
  subst houts
  obtain ⟨hlen, horigs, ident, hmem⟩ := pass2Results_members cfg o msgs res hres
  have htrans : ∀ (a b c : RecordOut),
      (fun a b : RecordOut => decide (a.dt ≤ b.dt)) a b = true →
      (fun a b : RecordOut => decide (a.dt ≤ b.dt)) b c = true →
      (fun a b : RecordOut => decide (a.dt ≤ b.dt)) a c = true := by
    intro a b c hab hbc
    simp only [decide_eq_true_eq] at hab hbc ⊢
    omega
  have htotal : ∀ (a b : RecordOut),
      ((fun a b : RecordOut => decide (a.dt ≤ b.dt)) a b ||
       (fun a b : RecordOut => decide (a.dt ≤ b.dt)) b a) = true := by
    intro a b
    simp only [Bool.or_eq_true, decide_eq_true_eq]
    omega
  refine ⟨res, hres, rfl, List.mergeSort_perm res _, hlen, horigs, ?_, ?_, ?_⟩
  · have hs := List.sorted_mergeSort htrans htotal res
    exact hs.imp (fun hab => by simpa using hab)
  · intro a b hab hsub
    refine List.sublist_mergeSort htrans htotal ?_ hsub
    refine List.Pairwise.cons ?_ (List.Pairwise.cons ?_ List.Pairwise.nil)
    · intro y hy
      have hyb : y = b := by simpa using hy
      subst hyb
      simpa using hab
    · intro y hy
      exact absurd hy (List.not_mem_nil y)
  · intro r hr
    refine ⟨(hmem r hr).2.1, ?_⟩
    rw [(hmem r hr).2.1]
    exact msgSortKey_ge _

def wC9orc : Oracles := { bundle := fun _ => default, phys := fun _ => default }

/-- Two records with `MSH-7` timestamps out of chronological order (2023
then 2020); neither carries a correlation key, an account number, or a date
of birth, so the run is fully concrete. -/
def wC9late : Str := str "MSH|^~\\&|App|FAC|R|RF|202301011200|X\nPID|1"

def wC9early : Str := str "MSH|^~\\&|App|FAC|R|RF|202001011200|X\nPID|1"

/-- Witness for C9: the concrete out-of-order batch processes to a sorted
output. -/
theorem C9_witness :
    List.Pairwise (fun a b : RecordOut => a.dt ≤ b.dt)
      (((pass2Results {} wC9orc [wC9late, wC9early]).getD []).mergeSort
        (fun a b => decide (a.dt ≤ b.dt))) := by
  obtain ⟨res, -, -, -, -, -, hpair, -, -⟩ :=
    C9_chronological_sort {} wC9orc [wC9late, wC9early]
      (((pass2Results {} wC9orc [wC9late, wC9early]).getD []).mergeSort
        (fun a b => decide (a.dt ≤ b.dt)))
      (by
        have hres : pass2Results {} wC9orc [wC9late, wC9early] =
            some ((pass2Results {} wC9orc [wC9late, wC9early]).getD []) := by rfl
        rw [processBatch, hres]
        rfl)
  exact hpair

end HL7
